import Mathlib

/-!
Verification of the market analytics engine of the nofx repository
(src/market/data.go): technical indicators (EMA, MACD, RSI, ATR), the
multi-timeframe support/resistance detector with confluence scoring, the
open-interest cache, and the snapshot assembler `Get`.

Go float64 values are modelled as exact rationals (ℚ), machine ints as ℤ/ℕ,
slices as lists.  Effectful code (`Get`, the open-interest cache) is modelled
by explicit state passing over abstract fetch results, with a boolean flag
(or counter) recording whether the upstream network call was performed.
-/

namespace Market

/-- Kline mirrors the Go struct `Kline` (src/market/data.go). -/
structure Kline where
  OpenTime : ℤ
  Open : ℚ
  High : ℚ
  Low : ℚ
  Close : ℚ
  Volume : ℚ
  CloseTime : ℤ
deriving DecidableEq, Repr

/-- calculateEMA mirrors Go `calculateEMA`: returns 0 when fewer than `period`
candles exist; otherwise seeds with the simple average of the first `period`
closes and folds forward with multiplier `2/(period+1)`. -/
def calculateEMA (klines : List Kline) (period : ℕ) : ℚ :=
  if klines.length < period then 0
  else
    let sum := ((klines.take period).map (·.Close)).sum
    let ema := sum / (period : ℚ)
    let multiplier := 2 / ((period : ℚ) + 1)
    (klines.drop period).foldl (fun ema k => (k.Close - ema) * multiplier + ema) ema

/-- calculateMACD mirrors Go `calculateMACD`: 0 for fewer than 26 candles,
otherwise EMA12 − EMA26. -/
def calculateMACD (klines : List Kline) : ℚ :=
  if klines.length < 26 then 0
  else calculateEMA klines 12 - calculateEMA klines 26

/-- Consecutive close-to-close changes, `klines[i].Close - klines[i-1].Close`
for i = 1 .. len-1, as used by the loops of Go `calculateRSI`. -/
def klineDiffs (klines : List Kline) : List ℚ :=
  List.zipWith (fun prev cur => cur.Close - prev.Close) klines klines.tail

/-- Accumulation of total gains and losses over a list of changes, mirroring
the initialization loop of Go `calculateRSI` (a non-positive change adds its
negation to the losses). -/
def gainsLosses (changes : List ℚ) : ℚ × ℚ :=
  changes.foldl
    (fun gl change => if change > 0 then (gl.1 + change, gl.2) else (gl.1, gl.2 + (-change)))
    (0, 0)

/-- One Wilder smoothing step on the pair (avgGain, avgLoss), mirroring the
body of the second loop of Go `calculateRSI`. -/
def wilderStep (period : ℕ) (avg : ℚ × ℚ) (change : ℚ) : ℚ × ℚ :=
  if change > 0 then
    ((avg.1 * ((period : ℚ) - 1) + change) / (period : ℚ),
     (avg.2 * ((period : ℚ) - 1)) / (period : ℚ))
  else
    ((avg.1 * ((period : ℚ) - 1)) / (period : ℚ),
     (avg.2 * ((period : ℚ) - 1) + (-change)) / (period : ℚ))

/-- The final (avgGain, avgLoss) pair of Go `calculateRSI`: simple averages of
the first `period` changes, Wilder-smoothed over the remaining changes. -/
def rsiAverages (klines : List Kline) (period : ℕ) : ℚ × ℚ :=
  let diffs := klineDiffs klines
  let init := gainsLosses (diffs.take period)
  (diffs.drop period).foldl (wilderStep period) (init.1 / (period : ℚ), init.2 / (period : ℚ))

/-- calculateRSI mirrors Go `calculateRSI`: 0 when the input length is at most
`period`; 100 exactly when the smoothed average loss is zero; otherwise
`100 - 100/(1 + avgGain/avgLoss)`. -/
def calculateRSI (klines : List Kline) (period : ℕ) : ℚ :=
  if klines.length ≤ period then 0
  else
    let avg := rsiAverages klines period
    if avg.2 = 0 then 100
    else 100 - 100 / (1 + avg.1 / avg.2)

/-- True ranges `max(high-low, |high-prevClose|, |low-prevClose|)` for
i = 1 .. len-1, as in Go `calculateATR`. -/
def trueRanges (klines : List Kline) : List ℚ :=
  List.zipWith
    (fun prev cur => max (cur.High - cur.Low) (max |cur.High - prev.Close| |cur.Low - prev.Close|))
    klines klines.tail

/-- calculateATR mirrors Go `calculateATR`: 0 when length ≤ period, otherwise
the Wilder-smoothed average of the true ranges. -/
def calculateATR (klines : List Kline) (period : ℕ) : ℚ :=
  if klines.length ≤ period then 0
  else
    let trs := trueRanges klines
    let atr := ((trs.take period).sum) / (period : ℚ)
    (trs.drop period).foldl (fun atr tr => (atr * ((period : ℚ) - 1) + tr) / (period : ℚ)) atr

/-- SupportResistanceLevel mirrors the Go struct of the same name. -/
structure SupportResistanceLevel where
  Price : ℚ
  Strength : ℤ
  Distance : ℚ
  Score : ℚ
  IsSupport : Bool
deriving DecidableEq, Repr

/-- levelPoint mirrors the Go struct `levelPoint` (detected local extremum). -/
structure levelPoint where
  Price : ℚ
  Index : ℕ
deriving DecidableEq, Repr

/-- levelStats mirrors the Go struct `levelStats` (touch count + accumulated
recency weight). -/
structure levelStats where
  touches : ℤ
  weight : ℚ
deriving DecidableEq, Repr

/-- weightedLevelSet mirrors the Go struct `weightedLevelSet`. -/
structure weightedLevelSet where
  levels : List SupportResistanceLevel
  weight : ℚ
deriving DecidableEq, Repr

/-- calcRecencyWeight mirrors Go `calcRecencyWeight`: 1 for windows of at most
one candle, otherwise a linear ramp `0.5 + 0.5 * index/(total-1)` with the
index clamped into range (the negative clamp is vacuous for ℕ indices). -/
def calcRecencyWeight (total index : ℕ) : ℚ :=
  if total ≤ 1 then 1
  else
    let index := if index ≥ total then total - 1 else index
    0.5 + 0.5 * ((index : ℚ) / ((total : ℚ) - 1))

/-- Low of the candle at a position (out-of-range positions, never reached by
the Go loops, default to 0). -/
def lowAt (klines : List Kline) (i : ℕ) : ℚ :=
  ((klines.get? i).map (·.Low)).getD 0

/-- High of the candle at a position. -/
def highAt (klines : List Kline) (i : ℕ) : ℚ :=
  ((klines.get? i).map (·.High)).getD 0

/-- Close of the candle at a position. -/
def closeAt (klines : List Kline) (i : ℕ) : ℚ :=
  ((klines.get? i).map (·.Close)).getD 0

/-- The ±3-candle window test of Go `findLocalMinima`: no candle within three
positions on either side has a strictly lower low. -/
def isLocalMinAt (klines : List Kline) (i : ℕ) : Bool :=
  (List.range' (i - 3) 7).all (fun j => j == i || !(decide (lowAt klines j < lowAt klines i)))

/-- The ±3-candle window test of Go `findLocalMaxima`. -/
def isLocalMaxAt (klines : List Kline) (i : ℕ) : Bool :=
  (List.range' (i - 3) 7).all (fun j => j == i || !(decide (highAt klines j > highAt klines i)))

/-- findLocalMinima mirrors Go `findLocalMinima`: scans indices 3 ≤ i < len-3,
keeps window minima, and suppresses near-duplicates (within 0.1% relative
price distance of an already accepted minimum). -/
def findLocalMinima (klines : List Kline) : List levelPoint :=
  if klines.length < 3 then []
  else
    (List.range' 3 (klines.length - 6)).foldl
      (fun minima i =>
        let currentLow := lowAt klines i
        if isLocalMinAt klines i then
          if minima.any (fun existing => decide (|existing.Price - currentLow| / currentLow < 0.001)) then
            minima
          else minima ++ [⟨currentLow, i⟩]
        else minima)
      []

/-- findLocalMaxima mirrors Go `findLocalMaxima`. -/
def findLocalMaxima (klines : List Kline) : List levelPoint :=
  if klines.length < 3 then []
  else
    (List.range' 3 (klines.length - 6)).foldl
      (fun maxima i =>
        let currentHigh := highAt klines i
        if isLocalMaxAt klines i then
          if maxima.any (fun existing => decide (|existing.Price - currentHigh| / currentHigh < 0.001)) then
            maxima
          else maxima ++ [⟨currentHigh, i⟩]
        else maxima)
      []

/-- Touch statistics of one accepted local minimum: the interleaved
candle/point loops of Go `calculateSupportResistanceLevels` accumulate, per
point, one initial touch plus one touch for every other candle whose low falls
within ±0.2% of the point price, recency-weighted. -/
def supportTouchStats (recent : List Kline) (total : ℕ) (point : levelPoint) : levelStats :=
  recent.enum.foldl
    (fun stats ic =>
      if ic.1 = point.Index then stats
      else if point.Price ≤ 0 then stats
      else if ic.2.Low ≤ point.Price * (1 + 0.002) ∧ ic.2.Low ≥ point.Price * (1 - 0.002) then
        ⟨stats.touches + 1, stats.weight + calcRecencyWeight total ic.1⟩
      else stats)
    ⟨1, calcRecencyWeight total point.Index⟩

/-- Touch statistics of one accepted local maximum (highs against the band). -/
def resistanceTouchStats (recent : List Kline) (total : ℕ) (point : levelPoint) : levelStats :=
  recent.enum.foldl
    (fun stats ic =>
      if ic.1 = point.Index then stats
      else if point.Price ≤ 0 then stats
      else if ic.2.High ≥ point.Price * (1 - 0.002) ∧ ic.2.High ≤ point.Price * (1 + 0.002) then
        ⟨stats.touches + 1, stats.weight + calcRecencyWeight total ic.1⟩
      else stats)
    ⟨1, calcRecencyWeight total point.Index⟩

/-- The merged record built in the tolerance branch of Go `mergeNearbyLevels`:
score-weighted price (denominator falling back to the strength total, or 1,
when the score total is non-positive), accumulated strength and score. -/
def mergeCombine (current l : SupportResistanceLevel) : SupportResistanceLevel :=
  let totalScore0 := current.Score + l.Score
  let totalScore :=
    if totalScore0 ≤ 0 then
      (if ((current.Strength + l.Strength : ℤ) : ℚ) = 0 then 1 else ((current.Strength + l.Strength : ℤ) : ℚ))
    else totalScore0
  { current with
    Price := (current.Price * current.Score + l.Price * l.Score) / totalScore,
    Strength := current.Strength + l.Strength,
    Score := current.Score + l.Score }

/-- The main loop of Go `mergeNearbyLevels` over the price-sorted list:
`current` absorbs each following level within tolerance of it, otherwise is
emitted and the next level starts a new group. -/
def mergeSortedLoop (tolerance : ℚ) (current : SupportResistanceLevel) :
    List SupportResistanceLevel → List SupportResistanceLevel
  | [] => [current]
  | l :: rest =>
    let denom0 := (current.Price + l.Price) / 2
    let denom := if denom0 = 0 then 1 else denom0
    if |l.Price - current.Price| / denom ≤ tolerance then
      mergeSortedLoop tolerance (mergeCombine current l) rest
    else
      current :: mergeSortedLoop tolerance { l with Distance := 0 } rest

/-- Price order used by the `sort.Slice` call of Go `mergeNearbyLevels` (an
unstable sort; any stable realization of the same order is a faithful model). -/
def priceLE (a b : SupportResistanceLevel) : Prop := a.Price ≤ b.Price

instance : DecidableRel priceLE := fun a b => inferInstanceAs (Decidable (a.Price ≤ b.Price))

instance : IsTotal SupportResistanceLevel priceLE := ⟨fun a b => le_total a.Price b.Price⟩

instance : IsTrans SupportResistanceLevel priceLE := ⟨fun _ _ _ h1 h2 => le_trans h1 h2⟩

/-- mergeNearbyLevels mirrors Go `mergeNearbyLevels`. -/
def mergeNearbyLevels (levels : List SupportResistanceLevel) (tolerance : ℚ) :
    List SupportResistanceLevel :=
  if levels.isEmpty then levels
  else
    match List.insertionSort priceLE levels with
    | [] => []
    | c :: rest => mergeSortedLoop tolerance { c with Distance := 0 } rest

/-- updateLevelDistances mirrors Go `updateLevelDistances`: leaves the list
untouched for a non-positive current price, otherwise recomputes each level's
percent distance from the current price. -/
def updateLevelDistances (levels : List SupportResistanceLevel) (currentPrice : ℚ)
    (isSupport : Bool) : List SupportResistanceLevel :=
  if currentPrice ≤ 0 then levels
  else
    levels.map (fun l =>
      if isSupport then { l with Distance := |(currentPrice - l.Price) / currentPrice * 100| }
      else { l with Distance := |(l.Price - currentPrice) / currentPrice * 100| })

/-- The ranking comparator of the first `sort.SliceStable` call of Go
`sortAndFilterLevels`: score descending, then strength descending, then
distance ascending, then (for supports) higher price first / (for
resistances) lower price first. -/
def rankLess (isSupport : Bool) (a b : SupportResistanceLevel) : Bool :=
  if a.Score = b.Score then
    if a.Strength = b.Strength then
      if a.Distance = b.Distance then
        if isSupport then decide (a.Price > b.Price) else decide (a.Price < b.Price)
      else decide (a.Distance < b.Distance)
    else decide (a.Strength > b.Strength)
  else decide (a.Score > b.Score)

/-- The display comparator of the second `sort.SliceStable` call of Go
`sortAndFilterLevels`: distance ascending with the same price tie-break. -/
def distLess (isSupport : Bool) (a b : SupportResistanceLevel) : Bool :=
  if a.Distance = b.Distance then
    if isSupport then decide (a.Price > b.Price) else decide (a.Price < b.Price)
  else decide (a.Distance < b.Distance)

/-- Non-strict version of `rankLess`, the order produced by the stable sort. -/
def rankLE (isSupport : Bool) (a b : SupportResistanceLevel) : Prop :=
  rankLess isSupport b a = false

/-- Non-strict version of `distLess`. -/
def distLE (isSupport : Bool) (a b : SupportResistanceLevel) : Prop :=
  distLess isSupport b a = false

instance (isSupport : Bool) : DecidableRel (rankLE isSupport) :=
  fun a b => inferInstanceAs (Decidable (rankLess isSupport b a = false))

instance (isSupport : Bool) : DecidableRel (distLE isSupport) :=
  fun a b => inferInstanceAs (Decidable (distLess isSupport b a = false))

/-- sortAndFilterLevels mirrors Go `sortAndFilterLevels`: stable-sort by the
ranking comparator, keep the first five, then stable-sort the survivors by the
display comparator.  `List.insertionSort` inserts each earlier element before
later ties, which is exactly the stable order of `sort.SliceStable`. -/
def sortAndFilterLevels (levels : List SupportResistanceLevel) (isSupport : Bool) :
    List SupportResistanceLevel :=
  if levels.isEmpty then []
  else
    let ranked := List.insertionSort (rankLE isSupport) levels
    List.insertionSort (distLE isSupport) (ranked.take 5)

/-- Last close of the level-detection window (`recent[len(recent)-1].Close` in
Go `calculateSupportResistanceLevels`); 0 for an empty window, in which case
the function has already returned. -/
def srCurrentPrice (klines : List Kline) (lookback : ℕ) : ℚ :=
  (((klines.drop (klines.length - lookback)).getLast?).map (·.Close)).getD 0

/-- calculateSupportResistanceLevels mirrors the Go function of the same name:
detect extrema over the last `lookback` candles, count touches, keep supports
below / resistances above the window's last close, merge within 0.2%, refresh
distances and rank. -/
def calculateSupportResistanceLevels (klines : List Kline) (lookback : ℕ) :
    List SupportResistanceLevel × List SupportResistanceLevel :=
  if klines.length = 0 then ([], [])
  else
    let recent := klines.drop (klines.length - lookback)
    if recent.length = 0 then ([], [])
    else
      let currentPrice := ((recent.getLast?).map (·.Close)).getD 0
      let localMins := findLocalMinima recent
      let localMaxs := findLocalMaxima recent
      let total := recent.length
      let supports := localMins.filterMap (fun point =>
        let stats := supportTouchStats recent total point
        if point.Price < currentPrice then
          some ⟨point.Price, stats.touches, 0, stats.weight, true⟩
        else none)
      let resistances := localMaxs.filterMap (fun point =>
        let stats := resistanceTouchStats recent total point
        if point.Price > currentPrice then
          some ⟨point.Price, stats.touches, 0, stats.weight, false⟩
        else none)
      let supports := mergeNearbyLevels supports 0.002
      let resistances := mergeNearbyLevels resistances 0.002
      let supports := updateLevelDistances supports currentPrice true
      let resistances := updateLevelDistances resistances currentPrice false
      (sortAndFilterLevels supports true, sortAndFilterLevels resistances false)

/-- SupportResistanceTimeframe mirrors the Go struct of the same name. -/
structure SupportResistanceTimeframe where
  Supports : List SupportResistanceLevel
  Resistances : List SupportResistanceLevel
deriving DecidableEq, Repr

/-- SupportResistanceConfluence mirrors the Go struct of the same name. -/
structure SupportResistanceConfluence where
  Supports : List SupportResistanceLevel
  Resistances : List SupportResistanceLevel
deriving DecidableEq, Repr

/-- SupportResistanceSummary mirrors the Go struct of the same name.  The Go
map is modelled by an association list in insertion order (the code only ever
reads it through keyed lookups and fixed name lists). -/
structure SupportResistanceSummary where
  Timeframes : List (String × SupportResistanceTimeframe)
  Confluence : Option SupportResistanceConfluence
deriving DecidableEq, Repr

/-- Go constant `supportResistanceLookback`. -/
def supportResistanceLookback : ℕ := 120

/-- Go constant `confluenceTolerance`. -/
def confluenceTolerance : ℚ := 0.002

/-- Go `math.Round`: nearest integer, halves away from zero. -/
def goRound (x : ℚ) : ℤ :=
  if 0 ≤ x then ⌊x + 1 / 2⌋ else -⌊-x + 1 / 2⌋

/-- The timeframe loop of Go `calculateSupportResistanceSummary`: skip empty
inputs, compute levels, skip timeframes with no levels at all, refresh
distances against the timeframe's own latest close and record the entry. -/
def summaryTimeframes (inputs : List (String × List Kline)) :
    List (String × SupportResistanceTimeframe) :=
  inputs.foldl
    (fun acc tf =>
      if tf.2.isEmpty then acc
      else
        let sr := calculateSupportResistanceLevels tf.2 supportResistanceLookback
        if sr.1.isEmpty ∧ sr.2.isEmpty then acc
        else
          let tfPrice := ((tf.2.getLast?).map (·.Close)).getD 0
          acc ++ [(tf.1, ⟨updateLevelDistances sr.1 tfPrice true,
                          updateLevelDistances sr.2 tfPrice false⟩)])
    []

/-- The base-timeframe selection of Go `calculateSupportResistanceSummary`:
the first of 3m, 15m, 1h, 4h that produced levels. -/
def selectBase (timeframes : List (String × SupportResistanceTimeframe)) :
    Option (String × SupportResistanceTimeframe) :=
  ["3m", "15m", "1h", "4h"].findSome? (fun name =>
    (timeframes.lookup name).map (fun tf => (name, tf)))

/-- The fixed weighting table of Go `calculateSupportResistanceSummary`. -/
def confluenceWeighting : List (String × ℚ) :=
  [("3m", 0.8), ("15m", 1.0), ("1h", 1.2), ("4h", 1.4), ("12h", 1.6), ("1d", 1.8)]

/-- The weighted-set accumulation loop of Go `calculateSupportResistanceSummary`
(support sets, resistance sets), skipping the base timeframe. -/
def buildSets (timeframes : List (String × SupportResistanceTimeframe)) (baseName : String) :
    List weightedLevelSet × List weightedLevelSet :=
  confluenceWeighting.foldl
    (fun acc cfg =>
      if cfg.1 = baseName then acc
      else
        match timeframes.lookup cfg.1 with
        | some tf => (acc.1 ++ [⟨tf.Supports, cfg.2⟩], acc.2 ++ [⟨tf.Resistances, cfg.2⟩])
        | none => acc)
    ([], [])

/-- The match test of the inner loop of Go `findConfluenceLevels`: skip a pair
with zero mean price, otherwise compare the relative distance with the
tolerance. -/
def levelMatches (tolerance : ℚ) (level other : SupportResistanceLevel) : Bool :=
  let denom := (level.Price + other.Price) / 2
  !(decide (denom = 0)) && decide (|level.Price - other.Price| / denom ≤ tolerance)

/-- The nested search loops of Go `findConfluenceLevels` with their breaks:
the first matching level of the first timeframe set that contains one. -/
def findFirstConfluenceMatch (level : SupportResistanceLevel)
    (sets : List weightedLevelSet) (tolerance : ℚ) : Option (ℚ × SupportResistanceLevel) :=
  sets.findSome? (fun set =>
    (set.levels.find? (fun other => levelMatches tolerance level other)).map
      (fun other => (set.weight, other)))

/-- The combined level built by Go `findConfluenceLevels`: the base level's
score and strength discounted by the fixed base weight 0.5, plus the matched
level's weighted contribution. -/
def combineConfluence (level : SupportResistanceLevel) (weight : ℚ)
    (other : SupportResistanceLevel) : SupportResistanceLevel :=
  let combined := { level with
    Score := level.Score * 0.5,
    Strength := goRound ((level.Strength : ℚ) * 0.5) }
  { combined with
    Score := combined.Score + other.Score * weight,
    Strength := combined.Strength + goRound ((other.Strength : ℚ) * weight) }

/-- findConfluenceLevels mirrors the Go function of the same name. -/
def findConfluenceLevels (base : List SupportResistanceLevel)
    (sets : List weightedLevelSet) (tolerance : ℚ) (currentPrice : ℚ)
    (isSupport : Bool) : List SupportResistanceLevel :=
  if base.isEmpty ∨ sets.isEmpty then []
  else
    let result := base.filterMap (fun level =>
      (findFirstConfluenceMatch level sets tolerance).map
        (fun m => combineConfluence level m.1 m.2))
    if result.isEmpty then result
    else sortAndFilterLevels (updateLevelDistances result currentPrice isSupport) isSupport

/-- calculateSupportResistanceSummary mirrors the Go function of the same
name (the six-timeframe version of the source). -/
def calculateSupportResistanceSummary (klines3m klines15m klines1h klines4h klines12h
    klines1d : List Kline) (currentPrice : ℚ) : SupportResistanceSummary :=
  let timeframes := summaryTimeframes
    [("3m", klines3m), ("15m", klines15m), ("1h", klines1h),
     ("4h", klines4h), ("12h", klines12h), ("1d", klines1d)]
  match selectBase timeframes with
  | none => ⟨timeframes, none⟩
  | some (baseName, base) =>
    let sets := buildSets timeframes baseName
    if sets.1.isEmpty then ⟨timeframes, none⟩
    else
      ⟨timeframes, some
        ⟨findConfluenceLevels base.Supports sets.1 confluenceTolerance currentPrice true,
         findConfluenceLevels base.Resistances sets.2 confluenceTolerance currentPrice false⟩⟩

/-- OIData mirrors the Go struct `OIData`. -/
structure OIData where
  Latest : ℚ
  Average : ℚ
deriving DecidableEq, Repr

/-- Go variable `hyperliquidOICacheTTL` (30 seconds, in abstract time units). -/
def hyperliquidOICacheTTL : ℤ := 30

/-- The shared cache state of `getHyperliquidOpenInterestData`: the
whole-market table (`hyperliquidOICache`) and its refresh timestamp
(`hyperliquidOICacheTime`). -/
structure OICacheState where
  cache : List (String × ℚ)
  cacheTime : ℤ
deriving DecidableEq, Repr

/-- Sequential model of one call to Go `getHyperliquidOpenInterestData` at
time `now`: the read-locked freshness check, the identical double check under
the exclusive lock, and — only if both miss — the bulk fetch replacing the
entire table (modelled by the already-parsed table `fetched`).  The boolean
result records whether the upstream bulk network call was performed. -/
def oiLookup (st : OICacheState) (now : ℤ) (symbol : String)
    (fetched : List (String × ℚ)) : OIData × OICacheState × Bool :=
  match (if now - st.cacheTime < hyperliquidOICacheTTL then st.cache.lookup symbol else none) with
  | some oi => (⟨oi, oi * 0.999⟩, st, false)
  | none =>
    match (if now - st.cacheTime < hyperliquidOICacheTTL then st.cache.lookup symbol else none) with
    | some oi => (⟨oi, oi * 0.999⟩, st, false)
    | none =>
      let st : OICacheState := ⟨fetched, now⟩
      match st.cache.lookup symbol with
      | some oi => (⟨oi, oi * 0.999⟩, st, true)
      | none => (⟨0, 0⟩, st, true)

/-- State of the two-caller interleaving model of the cache: the shared table,
its timestamp, the number of upstream bulk calls performed so far, and each
caller's program counter (0 = before the read-locked check, 1 = before the
exclusive-locked double check, 2 = done). -/
structure OIConcState where
  cache : List (String × ℚ)
  cacheTime : ℤ
  fetchCount : ℕ
  pc1 : ℕ
  pc2 : ℕ
deriving DecidableEq, Repr

/-- The freshness-and-presence test of `getHyperliquidOpenInterestData`. -/
def oiHit (cache : List (String × ℚ)) (cacheTime now : ℤ) (symbol : String) : Bool :=
  decide (now - cacheTime < hyperliquidOICacheTTL) && (cache.lookup symbol).isSome

/-- One atomic step of one caller.  A caller at pc 0 performs the read-locked
check; at pc 1 it holds the exclusive lock, re-checks, and fetches only if
still needed.  The RWMutex serializes these sections, so each is one atomic
step.  `caller = false` steps caller 1 (symbol `s1`), `caller = true` steps
caller 2 (symbol `s2`); time is fixed at `now` during the scenario. -/
def oiStep (now : ℤ) (fetched : List (String × ℚ)) (s1 s2 : String)
    (st : OIConcState) (caller : Bool) : OIConcState :=
  let pc := if caller then st.pc2 else st.pc1
  let sym := if caller then s2 else s1
  if pc = 0 then
    let pc := if oiHit st.cache st.cacheTime now sym then 2 else 1
    if caller then { st with pc2 := pc } else { st with pc1 := pc }
  else if pc = 1 then
    if oiHit st.cache st.cacheTime now sym then
      if caller then { st with pc2 := 2 } else { st with pc1 := 2 }
    else
      if caller then
        { st with cache := fetched, cacheTime := now, fetchCount := st.fetchCount + 1, pc2 := 2 }
      else
        { st with cache := fetched, cacheTime := now, fetchCount := st.fetchCount + 1, pc1 := 2 }
  else st

/-- Run the two-caller model under an arbitrary schedule (list of caller
choices). -/
def oiRun (now : ℤ) (fetched : List (String × ℚ)) (s1 s2 : String)
    (sched : List Bool) (st : OIConcState) : OIConcState :=
  sched.foldl (oiStep now fetched s1 s2) st

/-- IntradayData mirrors the Go struct `IntradayData`. -/
structure IntradayData where
  MidPrices : List ℚ
  EMA20Values : List ℚ
  MACDValues : List ℚ
  RSI7Values : List ℚ
  RSI14Values : List ℚ
deriving DecidableEq, Repr

/-- LongerTermData mirrors the Go struct `LongerTermData`. -/
structure LongerTermData where
  EMA20 : ℚ
  EMA50 : ℚ
  ATR3 : ℚ
  ATR14 : ℚ
  CurrentVolume : ℚ
  AverageVolume : ℚ
  MACDValues : List ℚ
  RSI14Values : List ℚ
deriving DecidableEq, Repr

/-- calculateIntradaySeries mirrors Go `calculateIntradaySeries`: for each of
the last (up to) ten candles, append the close and — once enough history
exists at that index — the indicators recomputed over the prefix ending
there. -/
def calculateIntradaySeries (klines : List Kline) : IntradayData :=
  let start := klines.length - 10
  (List.range' start (klines.length - start)).foldl
    (fun data i =>
      let prefixK := klines.take (i + 1)
      let data := { data with MidPrices := data.MidPrices ++ [closeAt klines i] }
      let data := if i ≥ 19 then
          { data with EMA20Values := data.EMA20Values ++ [calculateEMA prefixK 20] } else data
      let data := if i ≥ 25 then
          { data with MACDValues := data.MACDValues ++ [calculateMACD prefixK] } else data
      let data := if i ≥ 7 then
          { data with RSI7Values := data.RSI7Values ++ [calculateRSI prefixK 7] } else data
      if i ≥ 14 then
        { data with RSI14Values := data.RSI14Values ++ [calculateRSI prefixK 14] } else data)
    ⟨[], [], [], [], []⟩

/-- calculateLongerTermData mirrors Go `calculateLongerTermData`. -/
def calculateLongerTermData (klines : List Kline) : LongerTermData :=
  let currentVolume := if klines.length > 0 then ((klines.getLast?).map (·.Volume)).getD 0 else 0
  let averageVolume :=
    if klines.length > 0 then (klines.map (·.Volume)).sum / (klines.length : ℚ) else 0
  let start := klines.length - 10
  let series := (List.range' start (klines.length - start)).foldl
    (fun acc i =>
      let prefixK := klines.take (i + 1)
      let acc := if i ≥ 25 then (acc.1 ++ [calculateMACD prefixK], acc.2) else acc
      if i ≥ 14 then (acc.1, acc.2 ++ [calculateRSI prefixK 14]) else acc)
    ([], [])
  ⟨calculateEMA klines 20, calculateEMA klines 50,
   calculateATR klines 3, calculateATR klines 14,
   currentVolume, averageVolume, series.1, series.2⟩

/-- Go `Normalize`: uppercase and suffix to a USDT-quoted pair. -/
def asciiUpperChar (c : Char) : Char :=
  if 'a' ≤ c ∧ c ≤ 'z' then Char.ofNat (c.toNat - 32) else c

/-- Normalize mirrors Go `Normalize`. -/
def Normalize (symbol : String) : String :=
  let symbol := String.map asciiUpperChar symbol
  if symbol.endsWith "USDT" then symbol else symbol ++ "USDT"

/-- isInDefaultCoins mirrors Go `isInDefaultCoins` over the configured coin
list (Go `SetDefaultCoins` normalizes each configured coin before storing). -/
def isInDefaultCoins (defaultCoins : List String) (symbol : String) : Bool :=
  if defaultCoins.isEmpty then true
  else (defaultCoins.map Normalize).contains (Normalize symbol)

/-- Data mirrors the Go struct `Data` (the market snapshot).  The `OITopData`
field is omitted: `Get` never sets it. -/
structure Data where
  Symbol : String
  CurrentPrice : ℚ
  PriceChange1h : ℚ
  PriceChange4h : ℚ
  CurrentEMA20 : ℚ
  CurrentMACD : ℚ
  CurrentRSI7 : ℚ
  OpenInterest : OIData
  FundingRate : ℚ
  IntradaySeries : IntradayData
  LongerTermContext : LongerTermData
  SupportResistance : SupportResistanceSummary
deriving DecidableEq

/-- Abstract results of the network calls `Get` can perform, one per upstream
capability. -/
structure FetchEnv where
  klines3m : Except String (List Kline)
  klines15m : Except String (List Kline)
  klines1h : Except String (List Kline)
  klines4h : Except String (List Kline)
  oiHyperliquid : Except String OIData
  oiBinance : Except String OIData
  fundingRate : Except String ℚ
deriving Repr

/-- Get mirrors Go `Get` over abstract fetch results: any candle-fetch failure
aborts with an error naming the timeframe; open-interest is requested only for
symbols in the configured allow-set (the second component records whether that
network call was issued) and falls back to a zero `OIData` on failure; a
funding-rate failure falls back to rate 0.  The support/resistance summary is
built from the four fetched timeframes (the 12h/1d inputs of the six-timeframe
summary are not fetched by `Get`). -/
def Get (defaultCoins : List String) (symbol exchange : String) (env : FetchEnv) :
    Except String Data × Bool :=
  let symbol := Normalize symbol
  match env.klines3m with
  | .error e => (.error ("获取3分钟K线失败: " ++ e), false)
  | .ok klines3m =>
  match env.klines15m with
  | .error e => (.error ("获取15分钟K线失败: " ++ e), false)
  | .ok klines15m =>
  match env.klines1h with
  | .error e => (.error ("获取1小时K线失败: " ++ e), false)
  | .ok klines1h =>
  match env.klines4h with
  | .error e => (.error ("获取4小时K线失败: " ++ e), false)
  | .ok klines4h =>
    let currentPrice := ((klines3m.getLast?).map (·.Close)).getD 0
    let priceChange1h :=
      if klines3m.length ≥ 21 then
        let price1hAgo := closeAt klines3m (klines3m.length - 21)
        if price1hAgo > 0 then (currentPrice - price1hAgo) / price1hAgo * 100 else 0
      else 0
    let priceChange4h :=
      if klines4h.length ≥ 2 then
        let price4hAgo := closeAt klines4h (klines4h.length - 2)
        if price4hAgo > 0 then (currentPrice - price4hAgo) / price4hAgo * 100 else 0
      else 0
    let oiCalled := isInDefaultCoins defaultCoins symbol
    let oiData :=
      if oiCalled then
        match (if exchange = "hyperliquid" then env.oiHyperliquid else env.oiBinance) with
        | .ok oi => oi
        | .error _ => ⟨0, 0⟩
      else ⟨0, 0⟩
    let fundingRate := match env.fundingRate with | .ok r => r | .error _ => 0
    (.ok
      { Symbol := symbol
        CurrentPrice := currentPrice
        PriceChange1h := priceChange1h
        PriceChange4h := priceChange4h
        CurrentEMA20 := calculateEMA klines3m 20
        CurrentMACD := calculateMACD klines3m
        CurrentRSI7 := calculateRSI klines3m 7
        OpenInterest := oiData
        FundingRate := fundingRate
        IntradaySeries := calculateIntradaySeries klines3m
        LongerTermContext := calculateLongerTermData klines4h
        SupportResistance :=
          calculateSupportResistanceSummary klines3m klines15m klines1h klines4h [] [] currentPrice },
     oiCalled)

/-! Helper lemmas. -/

theorem list_sum_const {l : List ℚ} {c : ℚ} (h : ∀ x ∈ l, x = c) :
    l.sum = l.length * c := by
  induction l with
  | nil => simp
  | cons x xs ih =>
    have hx := h x (List.mem_cons_self x xs)
    have hs := ih (fun y hy => h y (List.mem_cons_of_mem x hy))
    simp [hx, hs]
    ring

theorem foldl_ema_const (m c : ℚ) :
    ∀ (l : List Kline), (∀ kl ∈ l, kl.Close = c) →
      l.foldl (fun ema k => (k.Close - ema) * m + ema) c = c := by
  intro l
  induction l with
  | nil => intro _; rfl
  | cons x xs ih =>
    intro h
    have hx := h x (List.mem_cons_self x xs)
    simp only [List.foldl_cons, hx, sub_self, zero_mul, zero_add]
    exact ih (fun y hy => h y (List.mem_cons_of_mem x hy))

theorem updateLevelDistances_nil (cp : ℚ) (b : Bool) :
    updateLevelDistances [] cp b = [] := by
  unfold updateLevelDistances
  split <;> rfl

theorem mergeNearbyLevels_nil (tol : ℚ) : mergeNearbyLevels [] tol = [] := rfl

theorem sortAndFilterLevels_nil (b : Bool) : sortAndFilterLevels [] b = [] := rfl

theorem findLocalMinima_small (klines : List Kline) (h : klines.length < 7) :
    findLocalMinima klines = [] := by
  unfold findLocalMinima
  by_cases h3 : klines.length < 3
  · simp [h3]
  · rw [if_neg h3]
    have h6 : klines.length - 6 = 0 := by omega
    rw [h6]
    rfl

theorem findLocalMaxima_small (klines : List Kline) (h : klines.length < 7) :
    findLocalMaxima klines = [] := by
  unfold findLocalMaxima
  by_cases h3 : klines.length < 3
  · simp [h3]
  · rw [if_neg h3]
    have h6 : klines.length - 6 = 0 := by omega
    rw [h6]
    rfl

theorem extremaFold_mem (cond : ℕ → Bool) (price : ℕ → ℚ) :
    ∀ (is : List ℕ) (acc : List levelPoint) (p : levelPoint),
      p ∈ is.foldl
        (fun acc i =>
          if cond i then
            if acc.any (fun existing => decide (|existing.Price - price i| / price i < 0.001)) then
              acc
            else acc ++ [⟨price i, i⟩]
          else acc) acc →
      p ∈ acc ∨ p.Index ∈ is := by
  intro is
  induction is with
  | nil => intro acc p hp; exact Or.inl hp
  | cons i is ih =>
    intro acc p hp
    rw [List.foldl_cons] at hp
    rcases ih _ p hp with hmem | hidx
    · by_cases hc : cond i
      · by_cases hd : acc.any (fun existing => decide (|existing.Price - price i| / price i < 0.001))
        · rw [if_pos hc, if_pos hd] at hmem
          exact Or.inl hmem
        · rw [if_pos hc, if_neg hd] at hmem
          rcases List.mem_append.mp hmem with h1 | h2
          · exact Or.inl h1
          · right
            have : p = ⟨price i, i⟩ := by simpa using h2
            rw [this]
            exact List.mem_cons_self i is
      · rw [if_neg hc] at hmem
        exact Or.inl hmem
    · exact Or.inr (List.mem_cons_of_mem i hidx)

theorem findLocalMinima_index_bounds (klines : List Kline) (p : levelPoint)
    (hp : p ∈ findLocalMinima klines) : 3 ≤ p.Index ∧ p.Index + 3 < klines.length := by
  unfold findLocalMinima at hp
  by_cases h3 : klines.length < 3
  · rw [if_pos h3] at hp
    exact absurd hp (List.not_mem_nil p)
  · rw [if_neg h3] at hp
    rcases extremaFold_mem (isLocalMinAt klines) (lowAt klines) _ _ _ hp with h | h
    · exact absurd h (List.not_mem_nil p)
    · rw [List.mem_range'_1] at h
      omega

theorem findLocalMaxima_index_bounds (klines : List Kline) (p : levelPoint)
    (hp : p ∈ findLocalMaxima klines) : 3 ≤ p.Index ∧ p.Index + 3 < klines.length := by
  unfold findLocalMaxima at hp
  by_cases h3 : klines.length < 3
  · rw [if_pos h3] at hp
    exact absurd hp (List.not_mem_nil p)
  · rw [if_neg h3] at hp
    rcases extremaFold_mem (isLocalMaxAt klines) (highAt klines) _ _ _ hp with h | h
    · exact absurd h (List.not_mem_nil p)
    · rw [List.mem_range'_1] at h
      omega

/-- The 4-hour candle series of the spec's end-to-end example, closes
[100, 102, 101, 99, 98, 97, 99, 103, 105, 104]. -/
def exampleKlines4h : List Kline :=
  [⟨0, 100, 100, 100, 100, 0, 0⟩, ⟨0, 102, 102, 102, 102, 0, 0⟩,
   ⟨0, 101, 101, 101, 101, 0, 0⟩, ⟨0, 99, 99, 99, 99, 0, 0⟩,
   ⟨0, 98, 98, 98, 98, 0, 0⟩, ⟨0, 97, 97, 97, 97, 0, 0⟩,
   ⟨0, 99, 99, 99, 99, 0, 0⟩, ⟨0, 103, 103, 103, 103, 0, 0⟩,
   ⟨0, 105, 105, 105, 105, 0, 0⟩, ⟨0, 104, 104, 104, 104, 0, 0⟩]

/-! Claim theorems. -/

/-- C7: indicators requested with insufficient history return a defined zero:
`calculateEMA` returns 0 for fewer than `period` candles, `calculateMACD`
returns 0 for fewer than 26 candles, `calculateRSI` and `calculateATR` return
0 for length at most `period`; and on the spec's 10-candle example series,
EMA(20) and MACD both return 0. -/
theorem C7_insufficient_history_zero :
    (∀ (klines : List Kline) (period : ℕ), klines.length < period →
       calculateEMA klines period = 0) ∧
    (∀ klines : List Kline, klines.length < 26 → calculateMACD klines = 0) ∧
    (∀ (klines : List Kline) (period : ℕ), klines.length ≤ period →
       calculateRSI klines period = 0) ∧
    (∀ (klines : List Kline) (period : ℕ), klines.length ≤ period →
       calculateATR klines period = 0) ∧
    calculateEMA exampleKlines4h 20 = 0 ∧ calculateMACD exampleKlines4h = 0 := by
  refine ⟨?_, ?_, ?_, ?_, ?_, ?_⟩
  · intro klines period h
    simp [calculateEMA, h]
  · intro klines h
    simp [calculateMACD, h]
  · intro klines period h
    simp [calculateRSI, h]
  · intro klines period h
    simp [calculateATR, h]
  · with_unfolding_all rfl
  · with_unfolding_all rfl

/-- Witness for C7 at concrete degenerate inputs. -/
theorem C7_insufficient_history_zero_witness :
    calculateEMA [] 1 = 0 ∧ calculateMACD [] = 0 ∧
    calculateRSI [] 0 = 0 ∧ calculateATR [] 0 = 0 :=
  ⟨C7_insufficient_history_zero.1 [] 1 (by decide),
   C7_insufficient_history_zero.2.1 [] (by decide),
   C7_insufficient_history_zero.2.2.1 [] 0 (by decide),
   C7_insufficient_history_zero.2.2.2.1 [] 0 (by decide)⟩

/-- C9: for every candle sequence of length at least `period` (with a positive
period) in which every close equals the same constant `c`, `calculateEMA`
returns exactly `c`: the simple-average seed equals `c` and each recursive
update leaves it unchanged. -/
theorem C9_ema_constant (klines : List Kline) (period : ℕ) (c : ℚ)
    (h1 : 1 ≤ period) (h2 : period ≤ klines.length)
    (hconst : ∀ kl ∈ klines, kl.Close = c) :
    calculateEMA klines period = c := by
  unfold calculateEMA
  rw [if_neg (not_lt.mpr h2)]
  have hsum : ((klines.take period).map (·.Close)).sum = period * c := by
    have hmem : ∀ x ∈ (klines.take period).map (·.Close), x = c := by
      intro x hx
      rcases List.mem_map.mp hx with ⟨kl, hkl, rfl⟩
      exact hconst kl (List.take_subset period klines hkl)
    rw [list_sum_const hmem]
    simp [List.length_take, min_eq_left h2]
  have hper : ((period : ℕ) : ℚ) ≠ 0 := Nat.cast_ne_zero.mpr (by omega)
  have hseed : ((klines.take period).map (·.Close)).sum / (period : ℚ) = c := by
    rw [hsum, mul_comm, mul_div_assoc, div_self hper, mul_one]
  simp only [hseed]
  exact foldl_ema_const _ c _ (fun kl hkl => hconst kl (List.drop_subset period klines hkl))

/-- Witness for C9: a constant-close series of length 3 with period 2. -/
theorem C9_ema_constant_witness :
    calculateEMA [⟨0, 7, 7, 7, 7, 0, 0⟩, ⟨0, 7, 7, 7, 7, 0, 0⟩, ⟨0, 7, 7, 7, 7, 0, 0⟩] 2 = 7 :=
  C9_ema_constant _ 2 7 (by decide) (by decide)
    (by
      intro kl hkl
      simp only [List.mem_cons, List.not_mem_nil, or_false] at hkl
      rcases hkl with rfl | rfl | rfl <;> rfl)

/-- C10: for every lookback window of fewer than 7 candles,
`calculateSupportResistanceLevels` returns empty support and resistance lists,
because `findLocalMinima` and `findLocalMaxima` only report extrema at indices
`3 ≤ i < len - 3` (the scanned window has `min len lookback` candles). -/
theorem C10_small_window_empty :
    (∀ (klines : List Kline) (lookback : ℕ), min klines.length lookback < 7 →
       calculateSupportResistanceLevels klines lookback = ([], [])) ∧
    (∀ (klines : List Kline), ∀ p ∈ findLocalMinima klines,
       3 ≤ p.Index ∧ p.Index + 3 < klines.length) ∧
    (∀ (klines : List Kline), ∀ p ∈ findLocalMaxima klines,
       3 ≤ p.Index ∧ p.Index + 3 < klines.length) := by
  refine ⟨?_, findLocalMinima_index_bounds, findLocalMaxima_index_bounds⟩
  intro klines lookback h
  unfold calculateSupportResistanceLevels
  by_cases h0 : klines.length = 0
  · rw [if_pos h0]
  · rw [if_neg h0]
    have hlen : (klines.drop (klines.length - lookback)).length = min klines.length lookback := by
      rw [List.length_drop]
      omega
    by_cases hr : (klines.drop (klines.length - lookback)).length = 0
    · rw [if_pos hr]
    · rw [if_neg hr]
      have hsmall : (klines.drop (klines.length - lookback)).length < 7 := by omega
      simp only [findLocalMinima_small _ hsmall, findLocalMaxima_small _ hsmall,
        List.filterMap_nil, mergeNearbyLevels_nil, updateLevelDistances_nil,
        sortAndFilterLevels_nil]

/-- Witness for C10: a 6-candle window yields no levels. -/
theorem C10_small_window_empty_witness :
    calculateSupportResistanceLevels
      [⟨0, 1, 2, 1, 1, 0, 0⟩, ⟨0, 1, 3, 1, 1, 0, 0⟩, ⟨0, 1, 2, 1, 1, 0, 0⟩,
       ⟨0, 1, 9, 1, 1, 0, 0⟩, ⟨0, 1, 2, 1, 1, 0, 0⟩, ⟨0, 1, 2, 1, 1, 0, 0⟩] 120 = ([], []) :=
  C10_small_window_empty.1 _ 120 (by decide)

theorem gainsLosses_snd_zero (changes : List ℚ) (h : ∀ d ∈ changes, 0 ≤ d) :
    (gainsLosses changes).2 = 0 := by
  unfold gainsLosses
  suffices hgen : ∀ (l : List ℚ) (init : ℚ × ℚ), (∀ d ∈ l, 0 ≤ d) →
      (l.foldl (fun gl change =>
        if change > 0 then (gl.1 + change, gl.2) else (gl.1, gl.2 + (-change))) init).2 = init.2 by
    exact hgen changes (0, 0) h
  intro l
  induction l with
  | nil => intro init _; rfl
  | cons d ds ih =>
    intro init hl
    rw [List.foldl_cons]
    rw [ih _ (fun x hx => hl x (List.mem_cons_of_mem d hx))]
    by_cases hd : d > 0
    · rw [if_pos hd]
    · rw [if_neg hd]
      have : d = 0 := le_antisymm (not_lt.mp hd) (hl d (List.mem_cons_self d ds))
      simp [this]

theorem wilderFold_snd_zero (period : ℕ) (changes : List ℚ) (h : ∀ d ∈ changes, 0 ≤ d) :
    ∀ g : ℚ, (changes.foldl (wilderStep period) (g, 0)).2 = 0 := by
  induction changes with
  | nil => intro g; rfl
  | cons d ds ih =>
    intro g
    rw [List.foldl_cons]
    have hds := fun x hx => h x (List.mem_cons_of_mem d hx)
    by_cases hd : d > 0
    · have hstep : wilderStep period (g, 0) d =
          ((g * ((period : ℚ) - 1) + d) / (period : ℚ), 0) := by
        simp [wilderStep, hd]
      rw [hstep]
      exact ih hds _
    · have hd0 : d = 0 := le_antisymm (not_lt.mp hd) (h d (List.mem_cons_self d ds))
      have hstep : wilderStep period (g, 0) d =
          ((g * ((period : ℚ) - 1)) / (period : ℚ), 0) := by
        simp [wilderStep, hd, hd0]
      rw [hstep]
      exact ih hds _

theorem rsiAverages_snd_zero (klines : List Kline) (period : ℕ)
    (h : ∀ d ∈ klineDiffs klines, 0 ≤ d) : (rsiAverages klines period).2 = 0 := by
  unfold rsiAverages
  have hinit : (gainsLosses ((klineDiffs klines).take period)).2 = 0 :=
    gainsLosses_snd_zero _ (fun d hd => h d (List.take_subset period _ hd))
  simp only [hinit, zero_div]
  exact wilderFold_snd_zero period _ (fun d hd => h d (List.drop_subset period _ hd)) _

theorem chain_lt_diffs_nonneg :
    ∀ (klines : List Kline), List.Chain' (fun a b : Kline => a.Close < b.Close) klines →
      ∀ d ∈ klineDiffs klines, 0 ≤ d := by
  intro klines
  induction klines with
  | nil => intro _ d hd; simp [klineDiffs] at hd
  | cons x xs ih =>
    intro h d hd
    cases xs with
    | nil => simp [klineDiffs] at hd
    | cons y rest =>
      have hxy : x.Close < y.Close := (List.chain'_cons.mp h).1
      have hrest := (List.chain'_cons.mp h).2
      have hd' : d = y.Close - x.Close ∨ d ∈ klineDiffs (y :: rest) := by
        simpa [klineDiffs] using hd
      rcases hd' with rfl | hmem
      · linarith
      · exact ih hrest d hmem

theorem const_diffs_nonneg :
    ∀ (klines : List Kline) (c : ℚ), (∀ kl ∈ klines, kl.Close = c) →
      ∀ d ∈ klineDiffs klines, 0 ≤ d := by
  intro klines
  induction klines with
  | nil => intro c _ d hd; simp [klineDiffs] at hd
  | cons x xs ih =>
    intro c h d hd
    cases xs with
    | nil => simp [klineDiffs] at hd
    | cons y rest =>
      have hx : x.Close = c := h x (List.mem_cons_self _ _)
      have hy : y.Close = c := h y (List.mem_cons_of_mem _ (List.mem_cons_self _ _))
      have hd' : d = y.Close - x.Close ∨ d ∈ klineDiffs (y :: rest) := by
        simpa [klineDiffs] using hd
      rcases hd' with rfl | hmem
      · rw [hx, hy, sub_self]
      · exact ih c (fun kl hkl => h kl (List.mem_cons_of_mem _ hkl)) d hmem

theorem gainsLosses_nonneg (changes : List ℚ) :
    0 ≤ (gainsLosses changes).1 ∧ 0 ≤ (gainsLosses changes).2 := by
  unfold gainsLosses
  suffices hgen : ∀ (l : List ℚ) (init : ℚ × ℚ), 0 ≤ init.1 → 0 ≤ init.2 →
      0 ≤ (l.foldl (fun gl change =>
        if change > 0 then (gl.1 + change, gl.2) else (gl.1, gl.2 + (-change))) init).1 ∧
      0 ≤ (l.foldl (fun gl change =>
        if change > 0 then (gl.1 + change, gl.2) else (gl.1, gl.2 + (-change))) init).2 by
    exact hgen changes (0, 0) le_rfl le_rfl
  intro l
  induction l with
  | nil => intro init h1 h2; exact ⟨h1, h2⟩
  | cons d ds ih =>
    intro init h1 h2
    rw [List.foldl_cons]
    by_cases hd : d > 0
    · rw [if_pos hd]
      exact ih _ (by simp; linarith) h2
    · rw [if_neg hd]
      exact ih _ h1 (by simp; linarith [not_lt.mp hd])

theorem wilderFold_nonneg (period : ℕ) (hp : 1 ≤ period) (changes : List ℚ) :
    ∀ g l : ℚ, 0 ≤ g → 0 ≤ l →
      0 ≤ (changes.foldl (wilderStep period) (g, l)).1 ∧
      0 ≤ (changes.foldl (wilderStep period) (g, l)).2 := by
  have hpq : (0 : ℚ) < (period : ℚ) := by
    have : (1 : ℚ) ≤ (period : ℚ) := by exact_mod_cast hp
    linarith
  have hpm : (0 : ℚ) ≤ (period : ℚ) - 1 := by
    have : (1 : ℚ) ≤ (period : ℚ) := by exact_mod_cast hp
    linarith
  induction changes with
  | nil => intro g l h1 h2; exact ⟨h1, h2⟩
  | cons d ds ih =>
    intro g l h1 h2
    rw [List.foldl_cons]
    by_cases hd : d > 0
    · have hstep : wilderStep period (g, l) d =
          ((g * ((period : ℚ) - 1) + d) / (period : ℚ),
           (l * ((period : ℚ) - 1)) / (period : ℚ)) := by
        simp [wilderStep, hd]
      rw [hstep]
      refine ih _ _ ?_ ?_
      · apply div_nonneg _ (le_of_lt hpq)
        have := mul_nonneg h1 hpm
        linarith
      · exact div_nonneg (mul_nonneg h2 hpm) (le_of_lt hpq)
    · have hstep : wilderStep period (g, l) d =
          ((g * ((period : ℚ) - 1)) / (period : ℚ),
           (l * ((period : ℚ) - 1) + (-d)) / (period : ℚ)) := by
        simp [wilderStep, hd]
      rw [hstep]
      refine ih _ _ ?_ ?_
      · exact div_nonneg (mul_nonneg h1 hpm) (le_of_lt hpq)
      · apply div_nonneg _ (le_of_lt hpq)
        have h3 := mul_nonneg h2 hpm
        have h4 : (0 : ℚ) ≤ -d := by linarith [not_lt.mp hd]
        linarith

theorem rsiAverages_nonneg (klines : List Kline) (period : ℕ) (hp : 1 ≤ period) :
    0 ≤ (rsiAverages klines period).1 ∧ 0 ≤ (rsiAverages klines period).2 := by
  unfold rsiAverages
  have hpq : (0 : ℚ) ≤ (period : ℚ) := by positivity
  have hinit := gainsLosses_nonneg ((klineDiffs klines).take period)
  exact wilderFold_nonneg period hp _ _ _
    (div_nonneg hinit.1 hpq) (div_nonneg hinit.2 hpq)

/-- C6: for candle sequences longer than the (positive) period,
`calculateRSI` returns exactly 100 whenever the Wilder-smoothed average loss
is zero — in particular for strictly monotonically increasing and for
constant close series — and otherwise returns
`100 - 100/(1 + avgGain/avgLoss)`, a value in [0, 100]. -/
theorem C6_rsi_hundred_and_bounds (klines : List Kline) (period : ℕ)
    (h1 : 1 ≤ period) (h2 : period < klines.length) :
    ((rsiAverages klines period).2 = 0 → calculateRSI klines period = 100) ∧
    (List.Chain' (fun a b : Kline => a.Close < b.Close) klines →
      calculateRSI klines period = 100) ∧
    (∀ c : ℚ, (∀ kl ∈ klines, kl.Close = c) → calculateRSI klines period = 100) ∧
    ((rsiAverages klines period).2 ≠ 0 →
      calculateRSI klines period =
        100 - 100 / (1 + (rsiAverages klines period).1 / (rsiAverages klines period).2) ∧
      0 ≤ calculateRSI klines period ∧ calculateRSI klines period ≤ 100) := by
  have hnl : ¬(klines.length ≤ period) := by omega
  refine ⟨?_, ?_, ?_, ?_⟩
  · intro h0
    simp [calculateRSI, hnl, h0]
  · intro hch
    have h0 := rsiAverages_snd_zero klines period (chain_lt_diffs_nonneg klines hch)
    simp [calculateRSI, hnl, h0]
  · intro c hc
    have h0 := rsiAverages_snd_zero klines period (const_diffs_nonneg klines c hc)
    simp [calculateRSI, hnl, h0]
  · intro hne
    have hnn := rsiAverages_nonneg klines period h1
    have hl : 0 < (rsiAverages klines period).2 := lt_of_le_of_ne hnn.2 (Ne.symm hne)
    have hrs : 0 ≤ (rsiAverages klines period).1 / (rsiAverages klines period).2 :=
      div_nonneg hnn.1 (le_of_lt hl)
    have hval : calculateRSI klines period =
        100 - 100 / (1 + (rsiAverages klines period).1 / (rsiAverages klines period).2) := by
      simp [calculateRSI, hnl, hne]
    refine ⟨hval, ?_, ?_⟩
    · rw [hval]
      have hle : 100 / (1 + (rsiAverages klines period).1 / (rsiAverages klines period).2)
          ≤ 100 := div_le_self (by norm_num) (by linarith)
      linarith
    · rw [hval]
      have hpos : 0 ≤ 100 / (1 + (rsiAverages klines period).1 / (rsiAverages klines period).2) :=
        div_nonneg (by norm_num) (by linarith)
      linarith

/-- Witness for C6: a strictly increasing 4-candle series with period 2 gives
RSI exactly 100. -/
theorem C6_rsi_hundred_and_bounds_witness :
    calculateRSI
      [⟨0, 1, 1, 1, 1, 0, 0⟩, ⟨0, 2, 2, 2, 2, 0, 0⟩,
       ⟨0, 3, 3, 3, 3, 0, 0⟩, ⟨0, 4, 4, 4, 4, 0, 0⟩] 2 = 100 :=
  (C6_rsi_hundred_and_bounds _ 2 (by decide) (by decide)).2.1
    (by
      refine List.chain'_cons.mpr ⟨?_, List.chain'_cons.mpr ⟨?_, List.chain'_cons.mpr ⟨?_, ?_⟩⟩⟩
      · norm_num
      · norm_num
      · norm_num
      · exact List.chain'_singleton _)

theorem convex_mean_between (x y sx sy : ℚ) (hx : 0 ≤ sx) (hy : 0 ≤ sy)
    (hs : 0 < sx + sy) :
    min x y ≤ (x * sx + y * sy) / (sx + sy) ∧ (x * sx + y * sy) / (sx + sy) ≤ max x y := by
  constructor
  · rw [le_div_iff₀ hs]
    have h1 : min x y ≤ x := min_le_left x y
    have h2 : min x y ≤ y := min_le_right x y
    nlinarith
  · rw [div_le_iff₀ hs]
    have h1 : x ≤ max x y := le_max_left x y
    have h2 : y ≤ max x y := le_max_right x y
    nlinarith

theorem mergeCombine_fields (c l : SupportResistanceLevel) :
    (mergeCombine c l).Strength = c.Strength + l.Strength ∧
    (mergeCombine c l).Score = c.Score + l.Score ∧
    (mergeCombine c l).IsSupport = c.IsSupport ∧
    (0 < c.Score + l.Score →
      (mergeCombine c l).Price = (c.Price * c.Score + l.Price * l.Score) / (c.Score + l.Score)) ∧
    (c.Score + l.Score ≤ 0 → ((c.Strength + l.Strength : ℤ) : ℚ) ≠ 0 →
      (mergeCombine c l).Price =
        (c.Price * c.Score + l.Price * l.Score) / ((c.Strength + l.Strength : ℤ) : ℚ)) ∧
    (c.Score + l.Score ≤ 0 → ((c.Strength + l.Strength : ℤ) : ℚ) = 0 →
      (mergeCombine c l).Price = (c.Price * c.Score + l.Price * l.Score) / 1) := by
  refine ⟨rfl, rfl, rfl, ?_, ?_, ?_⟩
  · intro h
    unfold mergeCombine
    simp only
    rw [if_neg (not_le.mpr h)]
  · intro h1 h2
    unfold mergeCombine
    simp only
    rw [if_pos h1, if_neg h2]
  · intro h1 h2
    unfold mergeCombine
    simp only
    rw [if_pos h1, if_pos h2]

theorem mergeSortedLoop_nil (tol : ℚ) (current : SupportResistanceLevel) :
    mergeSortedLoop tol current [] = [current] := rfl

theorem mergeSortedLoop_cons (tol : ℚ) (current l : SupportResistanceLevel)
    (rest : List SupportResistanceLevel) :
    mergeSortedLoop tol current (l :: rest) =
      if |l.Price - current.Price| /
          (if (current.Price + l.Price) / 2 = 0 then 1 else (current.Price + l.Price) / 2) ≤ tol
      then mergeSortedLoop tol (mergeCombine current l) rest
      else current :: mergeSortedLoop tol { l with Distance := 0 } rest := rfl

theorem mergeNearbyLevels_pair (l1 l2 : SupportResistanceLevel)
    (htol : |l2.Price - l1.Price| /
      (if (l1.Price + l2.Price) / 2 = 0 then 1 else (l1.Price + l2.Price) / 2) ≤ 0.002) :
    mergeNearbyLevels [l1, l2] 0.002 = [mergeCombine { l1 with Distance := 0 } l2] ∨
    mergeNearbyLevels [l1, l2] 0.002 = [mergeCombine { l2 with Distance := 0 } l1] := by
  have hsort : List.insertionSort priceLE [l1, l2] =
      if priceLE l1 l2 then [l1, l2] else [l2, l1] := by
    simp only [List.insertionSort, List.orderedInsert]
  unfold mergeNearbyLevels
  rw [hsort]
  by_cases hle : priceLE l1 l2
  · rw [if_pos hle]
    left
    show mergeSortedLoop 0.002 { l1 with Distance := 0 } [l2] = _
    rw [mergeSortedLoop_cons, if_pos (by simpa using htol), mergeSortedLoop_nil]
  · rw [if_neg hle]
    right
    show mergeSortedLoop 0.002 { l2 with Distance := 0 } [l1] = _
    rw [mergeSortedLoop_cons, if_pos (by
      simp only
      rw [abs_sub_comm, add_comm l2.Price l1.Price]
      simpa using htol), mergeSortedLoop_nil]

/-- C4 (amended): two levels within the 0.2% tolerance merge to a single
level whose strength and score are the sums of the inputs'; with positive
total score the merged price is the score-weighted average of the input
prices (hence lies between them); with non-positive total score the code
divides the same score-weighted numerator by the total strength (or by 1 when
that is zero), which is not a weighted average of the input prices. -/
theorem C4_merge_within_tolerance (l1 l2 : SupportResistanceLevel)
    (htol : |l2.Price - l1.Price| /
      (if (l1.Price + l2.Price) / 2 = 0 then 1 else (l1.Price + l2.Price) / 2) ≤ 0.002) :
    ∃ m, mergeNearbyLevels [l1, l2] 0.002 = [m] ∧
      m.Strength = l1.Strength + l2.Strength ∧
      m.Score = l1.Score + l2.Score ∧
      (0 < l1.Score + l2.Score →
        m.Price = (l1.Price * l1.Score + l2.Price * l2.Score) / (l1.Score + l2.Score)) ∧
      (l1.Score + l2.Score ≤ 0 → ((l1.Strength + l2.Strength : ℤ) : ℚ) ≠ 0 →
        m.Price = (l1.Price * l1.Score + l2.Price * l2.Score) /
          ((l1.Strength + l2.Strength : ℤ) : ℚ)) ∧
      (l1.Score + l2.Score ≤ 0 → ((l1.Strength + l2.Strength : ℤ) : ℚ) = 0 →
        m.Price = (l1.Price * l1.Score + l2.Price * l2.Score) / 1) ∧
      (0 ≤ l1.Score → 0 ≤ l2.Score → 0 < l1.Score + l2.Score →
        min l1.Price l2.Price ≤ m.Price ∧ m.Price ≤ max l1.Price l2.Price) := by
  have hbetween : ∀ m : SupportResistanceLevel,
      (0 < l1.Score + l2.Score →
        m.Price = (l1.Price * l1.Score + l2.Price * l2.Score) / (l1.Score + l2.Score)) →
      (0 ≤ l1.Score → 0 ≤ l2.Score → 0 < l1.Score + l2.Score →
        min l1.Price l2.Price ≤ m.Price ∧ m.Price ≤ max l1.Price l2.Price) := by
    intro m hp h1 h2 hs
    rw [hp hs]
    exact convex_mean_between l1.Price l2.Price l1.Score l2.Score h1 h2 hs
  rcases mergeNearbyLevels_pair l1 l2 htol with h | h
  · have hf := mergeCombine_fields { l1 with Distance := 0 } l2
    simp only at hf
    refine ⟨_, h, hf.1, hf.2.1, ?_, ?_, ?_, ?_⟩
    · exact hf.2.2.2.1
    · exact hf.2.2.2.2.1
    · exact hf.2.2.2.2.2
    · exact hbetween _ hf.2.2.2.1
  · have hf := mergeCombine_fields { l2 with Distance := 0 } l1
    simp only at hf
    have hsc : l2.Score + l1.Score = l1.Score + l2.Score := add_comm _ _
    have hst : l2.Strength + l1.Strength = l1.Strength + l2.Strength := add_comm _ _
    have hnum : l2.Price * l2.Score + l1.Price * l1.Score =
        l1.Price * l1.Score + l2.Price * l2.Score := add_comm _ _
    rw [hsc, hst, hnum] at hf
    refine ⟨_, h, hf.1, hf.2.1, ?_, ?_, ?_, ?_⟩
    · exact hf.2.2.2.1
    · exact hf.2.2.2.2.1
    · exact hf.2.2.2.2.2
    · exact hbetween _ hf.2.2.2.1

/-- Witness for C4: two levels 100 and 100.1 with positive scores 2 and 3. -/
theorem C4_merge_within_tolerance_witness :
    ∃ m, mergeNearbyLevels
        [⟨100, 1, 0, 2, true⟩, ⟨1001/10, 1, 0, 3, true⟩] 0.002 = [m] ∧
      m.Strength = 1 + 1 ∧
      m.Score = 2 + 3 ∧
      (0 < (2 : ℚ) + 3 → m.Price = (100 * 2 + (1001/10) * 3) / ((2 : ℚ) + 3)) ∧
      ((2 : ℚ) + 3 ≤ 0 → (((1 + 1 : ℤ) : ℚ)) ≠ 0 →
        m.Price = (100 * 2 + (1001/10) * 3) / (((1 + 1 : ℤ) : ℚ))) ∧
      ((2 : ℚ) + 3 ≤ 0 → (((1 + 1 : ℤ) : ℚ)) = 0 →
        m.Price = (100 * 2 + (1001/10) * 3) / 1) ∧
      (0 ≤ (2 : ℚ) → 0 ≤ (3 : ℚ) → 0 < (2 : ℚ) + 3 →
        min (100 : ℚ) (1001/10) ≤ m.Price ∧ m.Price ≤ max (100 : ℚ) (1001/10)) :=
  C4_merge_within_tolerance ⟨100, 1, 0, 2, true⟩ ⟨1001/10, 1, 0, 3, true⟩
    (by norm_num [abs_of_nonneg])

/-- C4 counterexample: two levels within tolerance whose scores are both 0
and strengths 1 each.  The claim's fallback would give the strength-weighted
average 100.05, but the code returns price 0 (score-weighted numerator 0
divided by total strength 2), which is not between the inputs. -/
theorem C4_counterexample :
    mergeNearbyLevels [⟨100, 1, 0, 0, true⟩, ⟨1001/10, 1, 0, 0, true⟩] 0.002 =
      [⟨0, 2, 0, 0, true⟩] ∧
    |(1001/10 : ℚ) - 100| / ((100 + 1001/10) / 2) ≤ 0.002 ∧
    ((100 : ℚ) * 1 + (1001/10) * 1) / 2 = 2001/20 ∧
    ((0 : ℚ) ≠ 2001/20) ∧ ¬(min (100 : ℚ) (1001/10) ≤ 0) := by
  refine ⟨by with_unfolding_all rfl, by norm_num [abs_of_nonneg], by norm_num, by norm_num,
    by norm_num⟩

theorem oiLookup_fresh_hit (st : OICacheState) (now : ℤ) (sym : String)
    (tbl : List (String × ℚ)) (v : ℚ)
    (hfresh : now - st.cacheTime < hyperliquidOICacheTTL)
    (hmem : st.cache.lookup sym = some v) :
    oiLookup st now sym tbl = (⟨v, v * 0.999⟩, st, false) := by
  unfold oiLookup
  simp only [if_pos hfresh, hmem]

theorem oiLookup_stale (st : OICacheState) (now : ℤ) (sym : String)
    (tbl : List (String × ℚ))
    (hstale : hyperliquidOICacheTTL ≤ now - st.cacheTime) :
    (oiLookup st now sym tbl).2.1 = ⟨tbl, now⟩ ∧ (oiLookup st now sym tbl).2.2 = true := by
  have hcond : ¬(now - st.cacheTime < hyperliquidOICacheTTL) := not_lt.mpr hstale
  unfold oiLookup
  simp only [if_neg hcond]
  rcases h : tbl.lookup sym with _ | v <;> simp [h]

theorem oiStep_preserves (cache0 fetched : List (String × ℚ)) (t0 now : ℤ) (s1 s2 : String)
    (hstale : hyperliquidOICacheTTL ≤ now - t0)
    (h1 : (fetched.lookup s1).isSome = true)
    (h2 : (fetched.lookup s2).isSome = true)
    (st : OIConcState) (caller : Bool)
    (hinv : (st.fetchCount = 1 ∧ st.cache = fetched ∧ st.cacheTime = now) ∨
      (st.fetchCount = 0 ∧ st.cache = cache0 ∧ st.cacheTime = t0 ∧ st.pc1 ≠ 2 ∧ st.pc2 ≠ 2)) :
    ((oiStep now fetched s1 s2 st caller).fetchCount = 1 ∧
      (oiStep now fetched s1 s2 st caller).cache = fetched ∧
      (oiStep now fetched s1 s2 st caller).cacheTime = now) ∨
    ((oiStep now fetched s1 s2 st caller).fetchCount = 0 ∧
      (oiStep now fetched s1 s2 st caller).cache = cache0 ∧
      (oiStep now fetched s1 s2 st caller).cacheTime = t0 ∧
      (oiStep now fetched s1 s2 st caller).pc1 ≠ 2 ∧
      (oiStep now fetched s1 s2 st caller).pc2 ≠ 2) := by
  rcases hinv with ⟨hc, hca, ht⟩ | ⟨hc, hca, ht, hp1, hp2⟩
  · -- one fetch already happened: the hit test succeeds and no step fetches again
    have hhit : oiHit st.cache st.cacheTime now (if caller then s2 else s1) = true := by
      unfold oiHit
      rw [hca, ht]
      have hlt : now - now < hyperliquidOICacheTTL := by
        simp [hyperliquidOICacheTTL]
      rw [decide_eq_true hlt]
      cases caller <;> simp [h1, h2]
    left
    unfold oiStep
    cases caller <;> simp only [hhit] <;> split_ifs <;> simp_all
  · -- no fetch yet: the hit test fails on the stale initial table
    have hmiss : ∀ sym', oiHit st.cache st.cacheTime now sym' = false := by
      intro sym'
      unfold oiHit
      rw [hca, ht]
      have hge : ¬(now - t0 < hyperliquidOICacheTTL) := not_lt.mpr hstale
      rw [decide_eq_false hge]
      simp
    unfold oiStep
    cases caller
    · simp only [Bool.false_eq_true, if_false, hmiss]
      by_cases hpc0 : st.pc1 = 0
      · rw [if_pos hpc0]
        right
        simp_all
      · rw [if_neg hpc0]
        by_cases hpc1 : st.pc1 = 1
        · rw [if_pos hpc1]
          left
          simp_all
        · rw [if_neg hpc1]
          right
          exact ⟨hc, hca, ht, hp1, hp2⟩
    · simp only [if_true, hmiss]
      by_cases hpc0 : st.pc2 = 0
      · rw [if_pos hpc0]
        right
        simp_all
      · rw [if_neg hpc0]
        by_cases hpc1 : st.pc2 = 1
        · rw [if_pos hpc1]
          left
          simp_all
        · rw [if_neg hpc1]
          right
          exact ⟨hc, hca, ht, hp1, hp2⟩

theorem oiRun_single_fetch (cache0 : List (String × ℚ)) (t0 now : ℤ)
    (fetched : List (String × ℚ)) (s1 s2 : String)
    (hstale : hyperliquidOICacheTTL ≤ now - t0)
    (h1 : (fetched.lookup s1).isSome = true)
    (h2 : (fetched.lookup s2).isSome = true)
    (sched : List Bool)
    (hdone1 : (oiRun now fetched s1 s2 sched ⟨cache0, t0, 0, 0, 0⟩).pc1 = 2)
    (_hdone2 : (oiRun now fetched s1 s2 sched ⟨cache0, t0, 0, 0, 0⟩).pc2 = 2) :
    (oiRun now fetched s1 s2 sched ⟨cache0, t0, 0, 0, 0⟩).fetchCount = 1 := by
  have hrun : ∀ (l : List Bool) (st : OIConcState),
      ((st.fetchCount = 1 ∧ st.cache = fetched ∧ st.cacheTime = now) ∨
        (st.fetchCount = 0 ∧ st.cache = cache0 ∧ st.cacheTime = t0 ∧ st.pc1 ≠ 2 ∧ st.pc2 ≠ 2)) →
      (((l.foldl (oiStep now fetched s1 s2) st).fetchCount = 1 ∧
          (l.foldl (oiStep now fetched s1 s2) st).cache = fetched ∧
          (l.foldl (oiStep now fetched s1 s2) st).cacheTime = now) ∨
        ((l.foldl (oiStep now fetched s1 s2) st).fetchCount = 0 ∧
          (l.foldl (oiStep now fetched s1 s2) st).cache = cache0 ∧
          (l.foldl (oiStep now fetched s1 s2) st).cacheTime = t0 ∧
          (l.foldl (oiStep now fetched s1 s2) st).pc1 ≠ 2 ∧
          (l.foldl (oiStep now fetched s1 s2) st).pc2 ≠ 2)) := by
    intro l
    induction l with
    | nil => intro st hst; exact hst
    | cons b bs ih =>
      intro st hst
      rw [List.foldl_cons]
      exact ih _ (oiStep_preserves cache0 fetched t0 now s1 s2 hstale h1 h2 st b hst)
  rcases hrun sched ⟨cache0, t0, 0, 0, 0⟩ (Or.inr ⟨rfl, rfl, rfl, by simp, by simp⟩) with
    h | h
  · exact h.1
  · exact absurd hdone1 h.2.2.2.1

/-- C2 (amended): after a successful refresh, a lookup within the 30-second
freshness window for a symbol PRESENT in the cached table performs no
upstream bulk call and returns the cached value scaled by 0.999; a lookup on
a stale cache replaces the table and performs the bulk call; and in the
two-caller interleaving model of the double-checked locking protocol, two
concurrent lookups starting from a stale cache perform exactly one upstream
bulk call in every schedule, provided the refreshed table contains both
requested symbols. -/
theorem C2_cache_refresh_behavior :
    (∀ (st : OICacheState) (now : ℤ) (sym : String) (tbl : List (String × ℚ)) (v : ℚ),
       now - st.cacheTime < hyperliquidOICacheTTL → st.cache.lookup sym = some v →
       oiLookup st now sym tbl = (⟨v, v * 0.999⟩, st, false)) ∧
    (∀ (st : OICacheState) (now : ℤ) (sym : String) (tbl : List (String × ℚ)),
       hyperliquidOICacheTTL ≤ now - st.cacheTime →
       (oiLookup st now sym tbl).2.1 = ⟨tbl, now⟩ ∧ (oiLookup st now sym tbl).2.2 = true) ∧
    (∀ (cache0 : List (String × ℚ)) (t0 now : ℤ) (fetched : List (String × ℚ))
       (s1 s2 : String) (sched : List Bool),
       hyperliquidOICacheTTL ≤ now - t0 →
       (fetched.lookup s1).isSome = true → (fetched.lookup s2).isSome = true →
       (oiRun now fetched s1 s2 sched ⟨cache0, t0, 0, 0, 0⟩).pc1 = 2 →
       (oiRun now fetched s1 s2 sched ⟨cache0, t0, 0, 0, 0⟩).pc2 = 2 →
       (oiRun now fetched s1 s2 sched ⟨cache0, t0, 0, 0, 0⟩).fetchCount = 1) :=
  ⟨oiLookup_fresh_hit,
   oiLookup_stale,
   fun cache0 t0 now fetched s1 s2 sched hstale h1 h2 =>
     oiRun_single_fetch cache0 t0 now fetched s1 s2 hstale h1 h2 sched⟩

/-- Witness for C2: a fresh-cache hit performs no bulk call, and a concrete
two-caller schedule from a stale cache fetches exactly once. -/
theorem C2_cache_refresh_behavior_witness :
    oiLookup ⟨[("AUSDT", 5)], 100⟩ 110 "AUSDT" [] =
      (⟨5, 5 * 0.999⟩, ⟨[("AUSDT", 5)], 100⟩, false) ∧
    (oiRun 100 [("AUSDT", 5), ("BUSDT", 6)] "AUSDT" "BUSDT" [false, true, false, true]
      ⟨[], -1000, 0, 0, 0⟩).fetchCount = 1 :=
  ⟨C2_cache_refresh_behavior.1 ⟨[("AUSDT", 5)], 100⟩ 110 "AUSDT" [] 5
     (by with_unfolding_all decide) (by with_unfolding_all rfl),
   C2_cache_refresh_behavior.2.2 [] (-1000) 100 [("AUSDT", 5), ("BUSDT", 6)] "AUSDT" "BUSDT"
     [false, true, false, true] (by with_unfolding_all decide)
     (by with_unfolding_all rfl) (by with_unfolding_all rfl)
     (by with_unfolding_all rfl) (by with_unfolding_all rfl)⟩

/-- C2 counterexample: after a successful refresh at time 100 installing the
table {AUSDT}, a lookup 10 time units later (well within the 30-unit window)
for the different symbol BUSDT — absent from the table — performs a second
upstream bulk call (the fresh-but-missing case falls through to the fetch),
contradicting the claim that no second bulk call occurs within the window. -/
theorem C2_counterexample :
    oiLookup ⟨[], -1000⟩ 100 "AUSDT" [("AUSDT", 5)] =
      (⟨5, 5 * 0.999⟩, ⟨[("AUSDT", 5)], 100⟩, true) ∧
    oiLookup ⟨[("AUSDT", 5)], 100⟩ 110 "BUSDT" [("AUSDT", 5)] =
      (⟨0, 0⟩, ⟨[("AUSDT", 5)], 110⟩, true) ∧
    (110 : ℤ) - 100 < hyperliquidOICacheTTL :=
  ⟨by with_unfolding_all rfl, by with_unfolding_all rfl, by with_unfolding_all decide⟩

/-- Lexicographic sort key realizing the ranking comparator: score descending,
strength descending, distance ascending, then price (negated for supports, so
the higher price sorts first). -/
def rankKey (isSupport : Bool) (a : SupportResistanceLevel) : ℚ ×ₗ (ℤ ×ₗ (ℚ ×ₗ ℚ)) :=
  toLex (-a.Score, toLex (-a.Strength, toLex (a.Distance, if isSupport then -a.Price else a.Price)))

/-- Lexicographic sort key realizing the display comparator. -/
def distKey (isSupport : Bool) (a : SupportResistanceLevel) : ℚ ×ₗ ℚ :=
  toLex (a.Distance, if isSupport then -a.Price else a.Price)

theorem rankLess_iff_key (sup : Bool) (a b : SupportResistanceLevel) :
    rankLess sup a b = true ↔ rankKey sup a < rankKey sup b := by
  unfold rankLess rankKey
  by_cases hs : a.Score = b.Score
  · by_cases hst : a.Strength = b.Strength
    · by_cases hd : a.Distance = b.Distance
      · cases sup <;>
          simp [hs, hst, hd, Prod.Lex.lt_iff, lt_self_iff_false, neg_lt_neg_iff]
      · simp [hs, hst, hd, Prod.Lex.lt_iff, lt_self_iff_false, neg_lt_neg_iff]
    · simp only [if_pos hs, if_neg hst, decide_eq_true_eq, Prod.Lex.lt_iff, gt_iff_lt]
      constructor
      · intro h
        right
        refine ⟨by rw [hs], Or.inl (neg_lt_neg h)⟩
      · rintro (h | ⟨-, (h | ⟨hss, -⟩)⟩)
        · rw [hs] at h
          exact absurd h (lt_irrefl _)
        · exact lt_of_neg_lt_neg h
        · exact absurd (neg_injective hss) hst
  · simp only [if_neg hs, decide_eq_true_eq, Prod.Lex.lt_iff, gt_iff_lt]
    constructor
    · intro h
      exact Or.inl (neg_lt_neg h)
    · rintro (h | ⟨hss, -⟩)
      · exact lt_of_neg_lt_neg h
      · exact absurd (neg_injective hss) hs

theorem distLess_iff_key (sup : Bool) (a b : SupportResistanceLevel) :
    distLess sup a b = true ↔ distKey sup a < distKey sup b := by
  unfold distLess distKey
  by_cases hd : a.Distance = b.Distance
  · cases sup <;>
      simp [hd, Prod.Lex.lt_iff, lt_self_iff_false, neg_lt_neg_iff]
  · simp only [if_neg hd, decide_eq_true_eq, Prod.Lex.lt_iff]
    constructor
    · intro h
      exact Or.inl h
    · rintro (h | ⟨hdd, -⟩)
      · exact h
      · exact absurd hdd hd

theorem rankLE_iff_key (sup : Bool) (a b : SupportResistanceLevel) :
    rankLE sup a b ↔ rankKey sup a ≤ rankKey sup b := by
  unfold rankLE
  rw [← not_lt, ← rankLess_iff_key]
  constructor
  · intro h hlt
    rw [h] at hlt
    exact Bool.false_ne_true hlt
  · intro h
    by_cases hb : rankLess sup b a = true
    · exact absurd hb h
    · simpa using hb

theorem distLE_iff_key (sup : Bool) (a b : SupportResistanceLevel) :
    distLE sup a b ↔ distKey sup a ≤ distKey sup b := by
  unfold distLE
  rw [← not_lt, ← distLess_iff_key]
  constructor
  · intro h hlt
    rw [h] at hlt
    exact Bool.false_ne_true hlt
  · intro h
    by_cases hb : distLess sup b a = true
    · exact absurd hb h
    · simpa using hb

instance (sup : Bool) : IsTotal SupportResistanceLevel (rankLE sup) :=
  ⟨fun a b => by
    rw [rankLE_iff_key, rankLE_iff_key]
    exact le_total _ _⟩

instance (sup : Bool) : IsTrans SupportResistanceLevel (rankLE sup) :=
  ⟨fun a b c hab hbc => by
    rw [rankLE_iff_key] at *
    exact le_trans hab hbc⟩

instance (sup : Bool) : IsTotal SupportResistanceLevel (distLE sup) :=
  ⟨fun a b => by
    rw [distLE_iff_key, distLE_iff_key]
    exact le_total _ _⟩

instance (sup : Bool) : IsTrans SupportResistanceLevel (distLE sup) :=
  ⟨fun a b c hab hbc => by
    rw [distLE_iff_key] at *
    exact le_trans hab hbc⟩

/-- C5: `sortAndFilterLevels` keeps at most five levels — exactly
`min (length levels) 5` — its output is sorted by the display order (distance
ascending, ties by higher price for supports / lower for resistances), and the
surviving multiset is the first five of a list sorted by the ranking order
(score descending, then strength descending, then distance ascending, then
the price tie-break): the ranking pass and the display pass are distinct. -/
theorem C5_rank_truncate_resort (levels : List SupportResistanceLevel) (sup : Bool) :
    (sortAndFilterLevels levels sup).length = min levels.length 5 ∧
    List.Sorted (distLE sup) (sortAndFilterLevels levels sup) ∧
    ∃ ranked : List SupportResistanceLevel, ranked.Perm levels ∧
      List.Sorted (rankLE sup) ranked ∧
      (sortAndFilterLevels levels sup).Perm (ranked.take 5) := by
  by_cases hempty : levels.isEmpty
  · have hnil : levels = [] := List.isEmpty_iff.mp hempty
    subst hnil
    refine ⟨by simp [sortAndFilterLevels], by simp [sortAndFilterLevels], [], ?_, ?_, ?_⟩
    · rfl
    · exact List.sorted_nil
    · simp [sortAndFilterLevels]
  · have hform : sortAndFilterLevels levels sup =
        List.insertionSort (distLE sup) ((List.insertionSort (rankLE sup) levels).take 5) := by
      unfold sortAndFilterLevels
      rw [if_neg hempty]
    refine ⟨?_, ?_, List.insertionSort (rankLE sup) levels,
      List.perm_insertionSort _ _, List.sorted_insertionSort _ _, ?_⟩
    · rw [hform, List.length_insertionSort, List.length_take, List.length_insertionSort,
        min_comm]
    · rw [hform]
      exact List.sorted_insertionSort _ _
    · rw [hform]
      exact List.perm_insertionSort _ _

theorem updateLevelDistances_length (levels : List SupportResistanceLevel) (cp : ℚ) (b : Bool) :
    (updateLevelDistances levels cp b).length = levels.length := by
  unfold updateLevelDistances
  split
  · rfl
  · rw [List.length_map]

theorem updateLevelDistances_mem_down (levels : List SupportResistanceLevel) (cp : ℚ)
    (b : Bool) (y : SupportResistanceLevel) (hy : y ∈ updateLevelDistances levels cp b) :
    ∃ x ∈ levels, y.Price = x.Price ∧ y.Strength = x.Strength ∧ y.Score = x.Score ∧
      y.IsSupport = x.IsSupport := by
  unfold updateLevelDistances at hy
  split at hy
  · exact ⟨y, hy, rfl, rfl, rfl, rfl⟩
  · rcases List.mem_map.mp hy with ⟨x, hx, hxy⟩
    refine ⟨x, hx, ?_⟩
    subst hxy
    split <;> exact ⟨rfl, rfl, rfl, rfl⟩

theorem updateLevelDistances_mem_up (levels : List SupportResistanceLevel) (cp : ℚ)
    (b : Bool) (x : SupportResistanceLevel) (hx : x ∈ levels) :
    ∃ y ∈ updateLevelDistances levels cp b, y.Price = x.Price ∧ y.Strength = x.Strength ∧
      y.Score = x.Score ∧ y.IsSupport = x.IsSupport := by
  unfold updateLevelDistances
  split
  · exact ⟨x, hx, rfl, rfl, rfl, rfl⟩
  · refine ⟨_, List.mem_map_of_mem _ hx, ?_⟩
    split <;> exact ⟨rfl, rfl, rfl, rfl⟩

theorem sortAndFilterLevels_subset (levels : List SupportResistanceLevel) (b : Bool)
    (x : SupportResistanceLevel) (hx : x ∈ sortAndFilterLevels levels b) : x ∈ levels := by
  unfold sortAndFilterLevels at hx
  split at hx
  · exact absurd hx (List.not_mem_nil x)
  · have h1 := (List.perm_insertionSort (distLE b) _).mem_iff.mp hx
    have h2 := List.take_subset 5 _ h1
    exact (List.perm_insertionSort (rankLE b) levels).mem_iff.mp h2

theorem sortAndFilterLevels_perm_of_short (levels : List SupportResistanceLevel) (b : Bool)
    (hlen : levels.length ≤ 5) : (sortAndFilterLevels levels b).Perm levels := by
  by_cases hempty : levels.isEmpty
  · rw [List.isEmpty_iff.mp hempty]
    exact List.Perm.refl _
  · have hform : sortAndFilterLevels levels b =
        List.insertionSort (distLE b) ((List.insertionSort (rankLE b) levels).take 5) := by
      unfold sortAndFilterLevels
      rw [if_neg hempty]
    have hrlen : (List.insertionSort (rankLE b) levels).length ≤ 5 := by
      rw [List.length_insertionSort]
      exact hlen
    rw [hform, List.take_of_length_le hrlen]
    exact ((List.perm_insertionSort (distLE b) _).trans (List.perm_insertionSort (rankLE b) _))

theorem combineConfluence_fields (level other : SupportResistanceLevel) (w : ℚ) :
    (combineConfluence level w other).Price = level.Price ∧
    (combineConfluence level w other).IsSupport = level.IsSupport ∧
    (combineConfluence level w other).Score = level.Score * 0.5 + other.Score * w ∧
    (combineConfluence level w other).Strength =
      goRound ((level.Strength : ℚ) * 0.5) + goRound ((other.Strength : ℚ) * w) :=
  ⟨rfl, rfl, rfl, rfl⟩

theorem findFirstConfluenceMatch_isSome_iff (level : SupportResistanceLevel)
    (sets : List weightedLevelSet) (tol : ℚ) :
    (findFirstConfluenceMatch level sets tol).isSome = true ↔
      ∃ set ∈ sets, ∃ other ∈ set.levels, levelMatches tol level other = true := by
  unfold findFirstConfluenceMatch
  induction sets with
  | nil => simp [List.findSome?]
  | cons s ss ih =>
    rcases hfind : s.levels.find? (fun other => levelMatches tol level other) with _ | other
    · have hnone : ∀ other ∈ s.levels, ¬(levelMatches tol level other = true) := by
        intro o ho
        exact List.find?_eq_none.mp hfind o ho
      rw [List.findSome?_cons]
      rw [hfind]
      simp only [Option.map_none']
      rw [ih]
      constructor
      · intro ⟨set, hset, hex⟩
        exact ⟨set, List.mem_cons_of_mem s hset, hex⟩
      · intro ⟨set, hset, other, hother, hmatch⟩
        rcases List.mem_cons.mp hset with rfl | hset'
        · exact absurd hmatch (hnone other hother)
        · exact ⟨set, hset', other, hother, hmatch⟩
    · rw [List.findSome?_cons, hfind]
      simp only [Option.map_some', Option.isSome_some, true_iff]
      exact ⟨s, List.mem_cons_self s ss, other,
        List.mem_of_find?_eq_some hfind, List.find?_some hfind⟩

theorem findFirstConfluenceMatch_first_set (level : SupportResistanceLevel)
    (s : weightedLevelSet) (tol : ℚ)
    (hmatch : ∃ other ∈ s.levels, levelMatches tol level other = true) :
    ∀ rest : List weightedLevelSet,
      findFirstConfluenceMatch level (s :: rest) tol =
        (s.levels.find? (fun other => levelMatches tol level other)).map
          (fun other => (s.weight, other)) := by
  intro rest
  unfold findFirstConfluenceMatch
  rw [List.findSome?_cons]
  rcases hfind : s.levels.find? (fun other => levelMatches tol level other) with _ | other
  · rcases hmatch with ⟨o, ho, hm⟩
    exact absurd hm (List.find?_eq_none.mp hfind o ho)
  · rfl

theorem findConfluenceLevels_mem_from (base : List SupportResistanceLevel)
    (sets : List weightedLevelSet) (tol cp : ℚ) (sup : Bool)
    (m : SupportResistanceLevel) (hm : m ∈ findConfluenceLevels base sets tol cp sup) :
    ∃ level ∈ base, ∃ w other, findFirstConfluenceMatch level sets tol = some (w, other) ∧
      m.Price = level.Price ∧ m.IsSupport = level.IsSupport ∧
      m.Score = level.Score * 0.5 + other.Score * w ∧
      m.Strength = goRound ((level.Strength : ℚ) * 0.5) + goRound ((other.Strength : ℚ) * w) := by
  by_cases hguard : (base.isEmpty ∨ sets.isEmpty)
  · unfold findConfluenceLevels at hm
    rw [if_pos (by simpa using hguard)] at hm
    exact absurd hm (List.not_mem_nil m)
  · have hform : findConfluenceLevels base sets tol cp sup =
        if (base.filterMap (fun level =>
            (findFirstConfluenceMatch level sets tol).map
              (fun m => combineConfluence level m.1 m.2))).isEmpty then
          base.filterMap (fun level =>
            (findFirstConfluenceMatch level sets tol).map
              (fun m => combineConfluence level m.1 m.2))
        else
          sortAndFilterLevels (updateLevelDistances (base.filterMap (fun level =>
            (findFirstConfluenceMatch level sets tol).map
              (fun m => combineConfluence level m.1 m.2))) cp sup) sup := by
      unfold findConfluenceLevels
      rw [if_neg (by simpa using hguard)]
    rw [hform] at hm
    split at hm
    · next hres =>
      rw [List.isEmpty_iff.mp hres] at hm
      exact absurd hm (List.not_mem_nil m)
    · have hsub := sortAndFilterLevels_subset _ sup m hm
      rcases updateLevelDistances_mem_down _ cp sup m hsub with ⟨x, hx, hP, hSt, hSc, hI⟩
      rcases List.mem_filterMap.mp hx with ⟨level, hlevel, hfx⟩
      rcases hmm : findFirstConfluenceMatch level sets tol with _ | wo
      · rw [hmm] at hfx
        simp at hfx
      · rw [hmm] at hfx
        simp only [Option.map_some', Option.some_inj] at hfx
        refine ⟨level, hlevel, wo.1, wo.2, hmm, ?_, ?_, ?_, ?_⟩
        · rw [hP, ← hfx]
          exact (combineConfluence_fields level wo.2 wo.1).1
        · rw [hI, ← hfx]
          exact (combineConfluence_fields level wo.2 wo.1).2.1
        · rw [hSc, ← hfx]
          exact (combineConfluence_fields level wo.2 wo.1).2.2.1
        · rw [hSt, ← hfx]
          exact (combineConfluence_fields level wo.2 wo.1).2.2.2

theorem findConfluenceLevels_mem_to (base : List SupportResistanceLevel)
    (sets : List weightedLevelSet) (tol cp : ℚ) (sup : Bool)
    (hlen : base.length ≤ 5) (level : SupportResistanceLevel) (hlevel : level ∈ base)
    (w : ℚ) (other : SupportResistanceLevel)
    (hmatch : findFirstConfluenceMatch level sets tol = some (w, other)) :
    ∃ m ∈ findConfluenceLevels base sets tol cp sup,
      m.Price = level.Price ∧ m.IsSupport = level.IsSupport ∧
      m.Score = level.Score * 0.5 + other.Score * w ∧
      m.Strength = goRound ((level.Strength : ℚ) * 0.5) + goRound ((other.Strength : ℚ) * w) := by
  have hsets : ¬sets.isEmpty := by
    intro h
    rw [List.isEmpty_iff.mp h] at hmatch
    simp [findFirstConfluenceMatch, List.findSome?] at hmatch
  have hbase : ¬base.isEmpty := by
    intro h
    rw [List.isEmpty_iff.mp h] at hlevel
    exact absurd hlevel (List.not_mem_nil level)
  have hcmem : combineConfluence level w other ∈ base.filterMap (fun level =>
      (findFirstConfluenceMatch level sets tol).map
        (fun m => combineConfluence level m.1 m.2)) := by
    apply List.mem_filterMap.mpr
    exact ⟨level, hlevel, by rw [hmatch]; rfl⟩
  have hrlen : (base.filterMap (fun level =>
      (findFirstConfluenceMatch level sets tol).map
        (fun m => combineConfluence level m.1 m.2))).length ≤ 5 :=
    le_trans (List.length_filterMap_le _ _) hlen
  have hrne : ¬(base.filterMap (fun level =>
      (findFirstConfluenceMatch level sets tol).map
        (fun m => combineConfluence level m.1 m.2))).isEmpty := by
    intro h
    rw [List.isEmpty_iff.mp h] at hcmem
    exact absurd hcmem (List.not_mem_nil _)
  have hform : findConfluenceLevels base sets tol cp sup =
      sortAndFilterLevels (updateLevelDistances (base.filterMap (fun level =>
        (findFirstConfluenceMatch level sets tol).map
          (fun m => combineConfluence level m.1 m.2))) cp sup) sup := by
    have hstep : findConfluenceLevels base sets tol cp sup =
        if (base.filterMap (fun level =>
            (findFirstConfluenceMatch level sets tol).map
              (fun m => combineConfluence level m.1 m.2))).isEmpty then
          base.filterMap (fun level =>
            (findFirstConfluenceMatch level sets tol).map
              (fun m => combineConfluence level m.1 m.2))
        else
          sortAndFilterLevels (updateLevelDistances (base.filterMap (fun level =>
            (findFirstConfluenceMatch level sets tol).map
              (fun m => combineConfluence level m.1 m.2))) cp sup) sup := by
      unfold findConfluenceLevels
      rw [if_neg (by simp [hsets, hbase])]
    rw [hstep, if_neg hrne]
  rw [hform]
  rcases updateLevelDistances_mem_up _ cp sup _ hcmem with ⟨y, hy, hP, hSt, hSc, hI⟩
  have hulen : (updateLevelDistances (base.filterMap (fun level =>
      (findFirstConfluenceMatch level sets tol).map
        (fun m => combineConfluence level m.1 m.2))) cp sup).length ≤ 5 := by
    rw [updateLevelDistances_length]
    exact hrlen
  have hperm := sortAndFilterLevels_perm_of_short _ sup hulen
  refine ⟨y, hperm.mem_iff.mpr hy, ?_, ?_, ?_, ?_⟩
  · rw [hP]
    exact (combineConfluence_fields level other w).1
  · rw [hI]
    exact (combineConfluence_fields level other w).2.1
  · rw [hSc]
    exact (combineConfluence_fields level other w).2.2.1
  · rw [hSt]
    exact (combineConfluence_fields level other w).2.2.2

/-- C3: a base level (base lists carry at most 5 levels in this pipeline) is
included in the confluence output if and only if some level of some other
timeframe set matches it within tolerance (nonzero mean price and relative
distance at most `tol`); the search stops at the first matching timeframe in
weight order, so later sets contribute nothing; and the included level's score
is the base score halved plus the matched level's score times the set weight
(strength likewise, with rounding). -/
theorem C3_confluence_first_match (base : List SupportResistanceLevel)
    (sets : List weightedLevelSet) (tol cp : ℚ) (sup : Bool)
    (hlen : base.length ≤ 5) :
    (∀ level ∈ base, ∀ (w : ℚ) (other : SupportResistanceLevel),
       findFirstConfluenceMatch level sets tol = some (w, other) →
       ∃ m ∈ findConfluenceLevels base sets tol cp sup,
         m.Price = level.Price ∧ m.IsSupport = level.IsSupport ∧
         m.Score = level.Score * 0.5 + other.Score * w ∧
         m.Strength = goRound ((level.Strength : ℚ) * 0.5) +
           goRound ((other.Strength : ℚ) * w)) ∧
    (∀ m ∈ findConfluenceLevels base sets tol cp sup,
       ∃ level ∈ base, ∃ (w : ℚ) (other : SupportResistanceLevel),
         findFirstConfluenceMatch level sets tol = some (w, other) ∧
         m.Price = level.Price ∧ m.IsSupport = level.IsSupport ∧
         m.Score = level.Score * 0.5 + other.Score * w ∧
         m.Strength = goRound ((level.Strength : ℚ) * 0.5) +
           goRound ((other.Strength : ℚ) * w)) ∧
    (∀ level : SupportResistanceLevel,
       (findFirstConfluenceMatch level sets tol).isSome = true ↔
       ∃ set ∈ sets, ∃ other ∈ set.levels, levelMatches tol level other = true) ∧
    (∀ (level : SupportResistanceLevel) (s : weightedLevelSet)
       (rest1 rest2 : List weightedLevelSet),
       (∃ other ∈ s.levels, levelMatches tol level other = true) →
       findFirstConfluenceMatch level (s :: rest1) tol =
         findFirstConfluenceMatch level (s :: rest2) tol) ∧
    (∀ level other : SupportResistanceLevel,
       levelMatches tol level other = true ↔
       (level.Price + other.Price) / 2 ≠ 0 ∧
       |level.Price - other.Price| / ((level.Price + other.Price) / 2) ≤ tol) := by
  refine ⟨?_, ?_, ?_, ?_, ?_⟩
  · intro level hlevel w other hmatch
    exact findConfluenceLevels_mem_to base sets tol cp sup hlen level hlevel w other hmatch
  · intro m hm
    exact findConfluenceLevels_mem_from base sets tol cp sup m hm
  · intro level
    exact findFirstConfluenceMatch_isSome_iff level sets tol
  · intro level s rest1 rest2 hex
    rw [findFirstConfluenceMatch_first_set level s tol hex rest1,
      findFirstConfluenceMatch_first_set level s tol hex rest2]
  · intro level other
    unfold levelMatches
    simp [decide_eq_true_eq]

/-- Witness for C3: one base level at price 100 matched by a level of a
single other set with weight 1.2. -/
theorem C3_confluence_first_match_witness :
    ∃ m ∈ findConfluenceLevels [⟨100, 2, 0, 1, true⟩] [⟨[⟨100, 3, 0, 2, true⟩], 12/10⟩]
        0.002 50 true,
      m.Price = (⟨100, 2, 0, 1, true⟩ : SupportResistanceLevel).Price ∧
      m.IsSupport = (⟨100, 2, 0, 1, true⟩ : SupportResistanceLevel).IsSupport ∧
      m.Score = (⟨100, 2, 0, 1, true⟩ : SupportResistanceLevel).Score * 0.5 +
        (⟨100, 3, 0, 2, true⟩ : SupportResistanceLevel).Score * (12/10) ∧
      m.Strength = goRound (((⟨100, 2, 0, 1, true⟩ : SupportResistanceLevel).Strength : ℚ) * 0.5) +
        goRound (((⟨100, 3, 0, 2, true⟩ : SupportResistanceLevel).Strength : ℚ) * (12/10)) :=
  (C3_confluence_first_match [⟨100, 2, 0, 1, true⟩] [⟨[⟨100, 3, 0, 2, true⟩], 12/10⟩]
      0.002 50 true (by decide)).1
    ⟨100, 2, 0, 1, true⟩ (List.mem_cons_self _ _) (12/10) ⟨100, 3, 0, 2, true⟩
    (by with_unfolding_all rfl)

theorem mergeSortedLoop_forall (tol : ℚ) (Q : SupportResistanceLevel → Prop)
    (hQd : ∀ l, Q l → Q { l with Distance := 0 })
    (hQm : ∀ c l, Q c → Q l → Q (mergeCombine c l)) :
    ∀ (rest : List SupportResistanceLevel) (current : SupportResistanceLevel),
      Q current → (∀ l ∈ rest, Q l) →
      ∀ m ∈ mergeSortedLoop tol current rest, Q m := by
  intro rest
  induction rest with
  | nil =>
    intro current hQc _ m hm
    rw [mergeSortedLoop_nil] at hm
    rw [List.mem_singleton.mp hm]
    exact hQc
  | cons l ls ih =>
    intro current hQc hQrest m hm
    rw [mergeSortedLoop_cons] at hm
    by_cases hc : |l.Price - current.Price| /
        (if (current.Price + l.Price) / 2 = 0 then 1 else (current.Price + l.Price) / 2) ≤ tol
    · rw [if_pos hc] at hm
      exact ih (mergeCombine current l)
        (hQm _ _ hQc (hQrest l (List.mem_cons_self l ls)))
        (fun x hx => hQrest x (List.mem_cons_of_mem l hx)) m hm
    · rw [if_neg hc] at hm
      rcases List.mem_cons.mp hm with rfl | hm'
      · exact hQc
      · exact ih _ (hQd l (hQrest l (List.mem_cons_self l ls)))
          (fun x hx => hQrest x (List.mem_cons_of_mem l hx)) m hm'

theorem mergeNearbyLevels_forall (tol : ℚ) (Q : SupportResistanceLevel → Prop)
    (hQd : ∀ l, Q l → Q { l with Distance := 0 })
    (hQm : ∀ c l, Q c → Q l → Q (mergeCombine c l))
    (levels : List SupportResistanceLevel) (hall : ∀ l ∈ levels, Q l) :
    ∀ m ∈ mergeNearbyLevels levels tol, Q m := by
  intro m hm
  unfold mergeNearbyLevels at hm
  split at hm
  · exact hall m hm
  · have hsall : ∀ x ∈ List.insertionSort priceLE levels, Q x := by
      intro x hx
      exact hall x ((List.perm_insertionSort priceLE levels).mem_iff.mp hx)
    rcases hsort : List.insertionSort priceLE levels with _ | ⟨c, rest⟩
    · rw [hsort] at hm
      exact absurd hm (List.not_mem_nil m)
    · rw [hsort] at hm
      rw [hsort] at hsall
      exact mergeSortedLoop_forall tol Q hQd hQm rest { c with Distance := 0 }
        (hQd c (hsall c (List.mem_cons_self c rest)))
        (fun x hx => hsall x (List.mem_cons_of_mem c hx)) m hm

theorem convexQ_lt (cp x y sx sy : ℚ) (hx : x < cp) (hy : y < cp)
    (hsx : 0 < sx) (hsy : 0 < sy) : (x * sx + y * sy) / (sx + sy) < cp := by
  rw [div_lt_iff₀ (by linarith)]
  nlinarith

theorem convexQ_gt (cp x y sx sy : ℚ) (hx : cp < x) (hy : cp < y)
    (hsx : 0 < sx) (hsy : 0 < sy) : cp < (x * sx + y * sy) / (sx + sy) := by
  rw [lt_div_iff₀ (by linarith)]
  nlinarith

theorem calcRecencyWeight_pos (total index : ℕ) : 0 < calcRecencyWeight total index := by
  simp only [calcRecencyWeight]
  split
  · norm_num
  · next h =>
    have h2 : 2 ≤ total := by omega
    have hden : (0 : ℚ) < (total : ℚ) - 1 := by
      have : (2 : ℚ) ≤ (total : ℚ) := by exact_mod_cast h2
      linarith
    have hnum : (0 : ℚ) ≤ (((if index ≥ total then total - 1 else index : ℕ)) : ℚ) :=
      Nat.cast_nonneg _
    have hfrac := div_nonneg hnum (le_of_lt hden)
    linarith [hfrac]

theorem supportTouchStats_weight_pos (recent : List Kline) (total : ℕ) (point : levelPoint) :
    0 < (supportTouchStats recent total point).weight := by
  unfold supportTouchStats
  suffices hgen : ∀ (l : List (ℕ × Kline)) (s : levelStats), 0 < s.weight →
      0 < (l.foldl (fun stats ic =>
        if ic.1 = point.Index then stats
        else if point.Price ≤ 0 then stats
        else if ic.2.Low ≤ point.Price * (1 + 0.002) ∧ ic.2.Low ≥ point.Price * (1 - 0.002) then
          ⟨stats.touches + 1, stats.weight + calcRecencyWeight total ic.1⟩
        else stats) s).weight by
    exact hgen _ _ (calcRecencyWeight_pos total point.Index)
  intro l
  induction l with
  | nil => intro s hs; exact hs
  | cons ic ics ih =>
    intro s hs
    rw [List.foldl_cons]
    apply ih
    split
    · exact hs
    · split
      · exact hs
      · split
        · have := calcRecencyWeight_pos total ic.1
          simp only
          linarith
        · exact hs

theorem resistanceTouchStats_weight_pos (recent : List Kline) (total : ℕ) (point : levelPoint) :
    0 < (resistanceTouchStats recent total point).weight := by
  unfold resistanceTouchStats
  suffices hgen : ∀ (l : List (ℕ × Kline)) (s : levelStats), 0 < s.weight →
      0 < (l.foldl (fun stats ic =>
        if ic.1 = point.Index then stats
        else if point.Price ≤ 0 then stats
        else if ic.2.High ≥ point.Price * (1 - 0.002) ∧ ic.2.High ≤ point.Price * (1 + 0.002) then
          ⟨stats.touches + 1, stats.weight + calcRecencyWeight total ic.1⟩
        else stats) s).weight by
    exact hgen _ _ (calcRecencyWeight_pos total point.Index)
  intro l
  induction l with
  | nil => intro s hs; exact hs
  | cons ic ics ih =>
    intro s hs
    rw [List.foldl_cons]
    apply ih
    split
    · exact hs
    · split
      · exact hs
      · split
        · have := calcRecencyWeight_pos total ic.1
          simp only
          linarith
        · exact hs

theorem pipeline_forall (levels : List SupportResistanceLevel) (cp : ℚ) (b : Bool)
    (Q : SupportResistanceLevel → Prop)
    (hQd : ∀ l, Q l → Q { l with Distance := 0 })
    (hQm : ∀ c l, Q c → Q l → Q (mergeCombine c l))
    (hQfields : ∀ x y : SupportResistanceLevel,
      y.Price = x.Price → y.Strength = x.Strength → y.Score = x.Score →
      y.IsSupport = x.IsSupport → Q x → Q y)
    (hall : ∀ x ∈ levels, Q x) :
    ∀ m ∈ sortAndFilterLevels (updateLevelDistances (mergeNearbyLevels levels 0.002) cp b) b,
      Q m := by
  intro m hm
  have h1 := sortAndFilterLevels_subset _ _ m hm
  rcases updateLevelDistances_mem_down _ _ _ m h1 with ⟨x, hx, hP, hSt, hSc, hI⟩
  exact hQfields x m hP hSt hSc hI
    (mergeNearbyLevels_forall 0.002 Q hQd hQm levels hall x hx)

theorem srLevels_bounds (klines : List Kline) (lookback : ℕ) :
    (∀ l ∈ (calculateSupportResistanceLevels klines lookback).1,
       l.IsSupport = true ∧ l.Price < srCurrentPrice klines lookback) ∧
    (∀ l ∈ (calculateSupportResistanceLevels klines lookback).2,
       l.IsSupport = false ∧ srCurrentPrice klines lookback < l.Price) := by
  by_cases h0 : klines.length = 0
  · have heq : calculateSupportResistanceLevels klines lookback = ([], []) := by
      unfold calculateSupportResistanceLevels
      rw [if_pos h0]
    rw [heq]
    constructor <;> intro l hl <;> exact absurd hl (List.not_mem_nil l)
  · by_cases hr : (klines.drop (klines.length - lookback)).length = 0
    · have heq : calculateSupportResistanceLevels klines lookback = ([], []) := by
        simp only [calculateSupportResistanceLevels]
        rw [if_neg h0, if_pos hr]
      rw [heq]
      constructor <;> intro l hl <;> exact absurd hl (List.not_mem_nil l)
    · have hQsup : ∀ x ∈ (findLocalMinima (klines.drop (klines.length - lookback))).filterMap
          (fun point =>
            if point.Price < srCurrentPrice klines lookback then
              some (⟨point.Price,
                (supportTouchStats (klines.drop (klines.length - lookback))
                  (klines.drop (klines.length - lookback)).length point).touches, 0,
                (supportTouchStats (klines.drop (klines.length - lookback))
                  (klines.drop (klines.length - lookback)).length point).weight, true⟩ :
                SupportResistanceLevel)
            else none),
          x.IsSupport = true ∧ x.Price < srCurrentPrice klines lookback ∧ 0 < x.Score := by
        intro x hx
        rcases List.mem_filterMap.mp hx with ⟨point, hpoint, hfx⟩
        split at hfx
        · next hlt =>
          rcases Option.some_inj.mp hfx with rfl
          exact ⟨rfl, hlt, supportTouchStats_weight_pos _ _ _⟩
        · exact absurd hfx (by simp)
      have hQres : ∀ x ∈ (findLocalMaxima (klines.drop (klines.length - lookback))).filterMap
          (fun point =>
            if point.Price > srCurrentPrice klines lookback then
              some (⟨point.Price,
                (resistanceTouchStats (klines.drop (klines.length - lookback))
                  (klines.drop (klines.length - lookback)).length point).touches, 0,
                (resistanceTouchStats (klines.drop (klines.length - lookback))
                  (klines.drop (klines.length - lookback)).length point).weight, false⟩ :
                SupportResistanceLevel)
            else none),
          x.IsSupport = false ∧ srCurrentPrice klines lookback < x.Price ∧ 0 < x.Score := by
        intro x hx
        rcases List.mem_filterMap.mp hx with ⟨point, hpoint, hfx⟩
        split at hfx
        · next hlt =>
          rcases Option.some_inj.mp hfx with rfl
          exact ⟨rfl, hlt, resistanceTouchStats_weight_pos _ _ _⟩
        · exact absurd hfx (by simp)
      have heq : calculateSupportResistanceLevels klines lookback =
          (sortAndFilterLevels (updateLevelDistances (mergeNearbyLevels
            ((findLocalMinima (klines.drop (klines.length - lookback))).filterMap
              (fun point =>
                if point.Price < srCurrentPrice klines lookback then
                  some (⟨point.Price,
                    (supportTouchStats (klines.drop (klines.length - lookback))
                      (klines.drop (klines.length - lookback)).length point).touches, 0,
                    (supportTouchStats (klines.drop (klines.length - lookback))
                      (klines.drop (klines.length - lookback)).length point).weight, true⟩ :
                    SupportResistanceLevel)
                else none)) 0.002) (srCurrentPrice klines lookback) true) true,
           sortAndFilterLevels (updateLevelDistances (mergeNearbyLevels
            ((findLocalMaxima (klines.drop (klines.length - lookback))).filterMap
              (fun point =>
                if point.Price > srCurrentPrice klines lookback then
                  some (⟨point.Price,
                    (resistanceTouchStats (klines.drop (klines.length - lookback))
                      (klines.drop (klines.length - lookback)).length point).touches, 0,
                    (resistanceTouchStats (klines.drop (klines.length - lookback))
                      (klines.drop (klines.length - lookback)).length point).weight, false⟩ :
                    SupportResistanceLevel)
                else none)) 0.002) (srCurrentPrice klines lookback) false) false) := by
        simp only [calculateSupportResistanceLevels]
        rw [if_neg h0, if_neg hr]
        rfl
      rw [heq]
      constructor
      · intro l hl
        have hQ := pipeline_forall _ (srCurrentPrice klines lookback) true
          (fun x => x.IsSupport = true ∧ x.Price < srCurrentPrice klines lookback ∧ 0 < x.Score)
          (fun x hx => hx)
          (fun cc ll hc hlv => by
            have hfields := mergeCombine_fields cc ll
            have hscore : 0 < cc.Score + ll.Score := by
              have := hc.2.2
              have := hlv.2.2
              linarith
            refine ⟨?_, ?_, ?_⟩
            · rw [hfields.2.2.1]
              exact hc.1
            · rw [hfields.2.2.2.1 hscore]
              exact convexQ_lt _ _ _ _ _ hc.2.1 hlv.2.1 hc.2.2 hlv.2.2
            · rw [hfields.2.1]
              linarith)
          (fun x y hP hSt hSc hI hx => by
            refine ⟨?_, ?_, ?_⟩
            · rw [hI]; exact hx.1
            · rw [hP]; exact hx.2.1
            · rw [hSc]; exact hx.2.2)
          hQsup l hl
        exact ⟨hQ.1, hQ.2.1⟩
      · intro l hl
        have hQ := pipeline_forall _ (srCurrentPrice klines lookback) false
          (fun x => x.IsSupport = false ∧ srCurrentPrice klines lookback < x.Price ∧ 0 < x.Score)
          (fun x hx => hx)
          (fun cc ll hc hlv => by
            have hfields := mergeCombine_fields cc ll
            have hscore : 0 < cc.Score + ll.Score := by
              have := hc.2.2
              have := hlv.2.2
              linarith
            refine ⟨?_, ?_, ?_⟩
            · rw [hfields.2.2.1]
              exact hc.1
            · rw [hfields.2.2.2.1 hscore]
              exact convexQ_gt _ _ _ _ _ hc.2.1 hlv.2.1 hc.2.2 hlv.2.2
            · rw [hfields.2.1]
              linarith)
          (fun x y hP hSt hSc hI hx => by
            refine ⟨?_, ?_, ?_⟩
            · rw [hI]; exact hx.1
            · rw [hP]; exact hx.2.1
            · rw [hSc]; exact hx.2.2)
          hQres l hl
        exact ⟨hQ.1, hQ.2.1⟩

theorem getLast?_drop_of_lt (l : List Kline) (n : ℕ) (h : n < l.length) :
    (l.drop n).getLast? = l.getLast? := by
  rw [List.getLast?_eq_getElem?, List.getLast?_eq_getElem?, List.getElem?_drop,
    List.length_drop]
  congr 1
  omega

theorem srCurrentPrice_eq_last (klines : List Kline) (lookback : ℕ)
    (h0 : klines.length ≠ 0) (hlb : 1 ≤ lookback) :
    srCurrentPrice klines lookback = ((klines.getLast?).map (·.Close)).getD 0 := by
  unfold srCurrentPrice
  rw [getLast?_drop_of_lt]
  omega

theorem lookup_mem_tf (l : List (String × SupportResistanceTimeframe)) (n : String)
    (tf : SupportResistanceTimeframe) (h : l.lookup n = some tf) : (n, tf) ∈ l := by
  induction l with
  | nil => simp [List.lookup] at h
  | cons a rest ih =>
    obtain ⟨k, v⟩ := a
    cases hbeq : (n == k) with
    | false =>
      simp only [List.lookup, hbeq] at h
      exact List.mem_cons_of_mem _ (ih h)
    | true =>
      simp only [List.lookup, hbeq] at h
      have hk : n = k := eq_of_beq hbeq
      have hv : v = tf := Option.some_inj.mp h
      rw [hk, hv]
      exact List.mem_cons_self _ _

theorem selectBase_mem (tfs : List (String × SupportResistanceTimeframe))
    (name : String) (tf : SupportResistanceTimeframe)
    (h : selectBase tfs = some (name, tf)) : (name, tf) ∈ tfs := by
  unfold selectBase at h
  rcases List.exists_of_findSome?_eq_some h with ⟨n, hn, hfn⟩
  rcases hlk : tfs.lookup n with _ | tf'
  · rw [hlk] at hfn
    simp at hfn
  · rw [hlk] at hfn
    simp only [Option.map_some', Option.some_inj] at hfn
    have h1 : n = name := congrArg Prod.fst hfn
    have h2 : tf' = tf := congrArg Prod.snd hfn
    subst h1
    subst h2
    exact lookup_mem_tf _ _ _ hlk

theorem summaryTimeframes_mem (inputs : List (String × List Kline))
    (entry : String × SupportResistanceTimeframe)
    (hmem : entry ∈ summaryTimeframes inputs) :
    ∃ ks : List Kline, (entry.1, ks) ∈ inputs ∧ ks.length ≠ 0 ∧
      entry.2.Supports = updateLevelDistances
        (calculateSupportResistanceLevels ks supportResistanceLookback).1
        (((ks.getLast?).map (·.Close)).getD 0) true ∧
      entry.2.Resistances = updateLevelDistances
        (calculateSupportResistanceLevels ks supportResistanceLookback).2
        (((ks.getLast?).map (·.Close)).getD 0) false := by
  unfold summaryTimeframes at hmem
  suffices hgen : ∀ (l : List (String × List Kline)) (acc : List (String × SupportResistanceTimeframe)),
      entry ∈ l.foldl (fun acc tf =>
        if tf.2.isEmpty then acc
        else
          if (calculateSupportResistanceLevels tf.2 supportResistanceLookback).1.isEmpty ∧
              (calculateSupportResistanceLevels tf.2 supportResistanceLookback).2.isEmpty then acc
          else
            acc ++ [(tf.1, ⟨updateLevelDistances
                (calculateSupportResistanceLevels tf.2 supportResistanceLookback).1
                (((tf.2.getLast?).map (·.Close)).getD 0) true,
              updateLevelDistances
                (calculateSupportResistanceLevels tf.2 supportResistanceLookback).2
                (((tf.2.getLast?).map (·.Close)).getD 0) false⟩)]) acc →
      entry ∈ acc ∨ ∃ ks : List Kline, (entry.1, ks) ∈ l ∧ ks.length ≠ 0 ∧
        entry.2.Supports = updateLevelDistances
          (calculateSupportResistanceLevels ks supportResistanceLookback).1
          (((ks.getLast?).map (·.Close)).getD 0) true ∧
        entry.2.Resistances = updateLevelDistances
          (calculateSupportResistanceLevels ks supportResistanceLookback).2
          (((ks.getLast?).map (·.Close)).getD 0) false by
    rcases hgen inputs [] hmem with habs | hok
    · exact absurd habs (List.not_mem_nil entry)
    · exact hok
  intro l
  induction l with
  | nil =>
    intro acc h
    exact Or.inl h
  | cons tf rest ih =>
    intro acc h
    rw [List.foldl_cons] at h
    rcases ih _ h with hstep | ⟨ks, hks, hlen, hS, hR⟩
    · by_cases he : tf.2.isEmpty
      · rw [if_pos he] at hstep
        exact Or.inl hstep
      · rw [if_neg he] at hstep
        by_cases hb : (calculateSupportResistanceLevels tf.2 supportResistanceLookback).1.isEmpty ∧
            (calculateSupportResistanceLevels tf.2 supportResistanceLookback).2.isEmpty
        · rw [if_pos hb] at hstep
          exact Or.inl hstep
        · rw [if_neg hb] at hstep
          rcases List.mem_append.mp hstep with hacc | hnew
          · exact Or.inl hacc
          · right
            have hentry := List.mem_singleton.mp hnew
            refine ⟨tf.2, ?_, ?_, ?_, ?_⟩
            · rw [hentry]
              exact List.mem_cons_self _ _
            · intro h0
              exact he (by
                rw [List.isEmpty_iff]
                exact List.length_eq_zero.mp h0)
            · rw [hentry]
            · rw [hentry]
    · exact Or.inr ⟨ks, List.mem_cons_of_mem tf hks, hlen, hS, hR⟩

/-- C1 (amended): supports always price-below and resistances always
price-above the current price used at computation time — for
`calculateSupportResistanceLevels` this is the detection window's last close
(`srCurrentPrice`), post-merge; every timeframe entry of the summary
satisfies the invariant against its own timeframe's close; and the confluence
result satisfies it against the BASE timeframe's close (not, as the original
claim stated, against the `currentPrice` argument of
`calculateSupportResistanceSummary` — see the counterexample). -/
theorem C1_price_side_invariant :
    (∀ (klines : List Kline) (lookback : ℕ),
       (∀ l ∈ (calculateSupportResistanceLevels klines lookback).1,
          l.IsSupport = true ∧ l.Price < srCurrentPrice klines lookback) ∧
       (∀ l ∈ (calculateSupportResistanceLevels klines lookback).2,
          l.IsSupport = false ∧ srCurrentPrice klines lookback < l.Price)) ∧
    (∀ (inputs : List (String × List Kline)) (entry : String × SupportResistanceTimeframe),
       entry ∈ summaryTimeframes inputs →
       ∃ ks : List Kline, (entry.1, ks) ∈ inputs ∧
         (∀ l ∈ entry.2.Supports,
            l.IsSupport = true ∧ l.Price < srCurrentPrice ks supportResistanceLookback) ∧
         (∀ l ∈ entry.2.Resistances,
            l.IsSupport = false ∧ srCurrentPrice ks supportResistanceLookback < l.Price)) ∧
    (∀ (k3 k15 k1h k4h k12 k1d : List Kline) (cp : ℚ) (c : SupportResistanceConfluence),
       (calculateSupportResistanceSummary k3 k15 k1h k4h k12 k1d cp).Confluence = some c →
       ∃ (name : String) (ks : List Kline) (basetf : SupportResistanceTimeframe),
         selectBase (summaryTimeframes [("3m", k3), ("15m", k15), ("1h", k1h), ("4h", k4h),
           ("12h", k12), ("1d", k1d)]) = some (name, basetf) ∧
         (name, ks) ∈ [("3m", k3), ("15m", k15), ("1h", k1h), ("4h", k4h),
           ("12h", k12), ("1d", k1d)] ∧
         (∀ l ∈ c.Supports,
            l.IsSupport = true ∧ l.Price < srCurrentPrice ks supportResistanceLookback) ∧
         (∀ l ∈ c.Resistances,
            l.IsSupport = false ∧ srCurrentPrice ks supportResistanceLookback < l.Price)) := by
  have htf : ∀ (inputs : List (String × List Kline)) (entry : String × SupportResistanceTimeframe),
      entry ∈ summaryTimeframes inputs →
      ∃ ks : List Kline, (entry.1, ks) ∈ inputs ∧
        (∀ l ∈ entry.2.Supports,
           l.IsSupport = true ∧ l.Price < srCurrentPrice ks supportResistanceLookback) ∧
        (∀ l ∈ entry.2.Resistances,
           l.IsSupport = false ∧ srCurrentPrice ks supportResistanceLookback < l.Price) := by
    intro inputs entry hmem
    rcases summaryTimeframes_mem inputs entry hmem with ⟨ks, hks, hlen, hS, hR⟩
    refine ⟨ks, hks, ?_, ?_⟩
    · intro l hl
      rw [hS] at hl
      rcases updateLevelDistances_mem_down _ _ _ l hl with ⟨x, hx, hP, _, _, hI⟩
      have hb := (srLevels_bounds ks supportResistanceLookback).1 x hx
      rw [hI, hP]
      exact hb
    · intro l hl
      rw [hR] at hl
      rcases updateLevelDistances_mem_down _ _ _ l hl with ⟨x, hx, hP, _, _, hI⟩
      have hb := (srLevels_bounds ks supportResistanceLookback).2 x hx
      rw [hI, hP]
      exact hb
  refine ⟨fun klines lookback => srLevels_bounds klines lookback, htf, ?_⟩
  intro k3 k15 k1h k4h k12 k1d cp c hc
  rcases hsel : selectBase (summaryTimeframes [("3m", k3), ("15m", k15), ("1h", k1h),
      ("4h", k4h), ("12h", k12), ("1d", k1d)]) with _ | nb
  · have hnone : (calculateSupportResistanceSummary k3 k15 k1h k4h k12 k1d cp).Confluence
        = none := by
      simp only [calculateSupportResistanceSummary]
      rw [hsel]
    rw [hnone] at hc
    exact absurd hc (by simp)
  · obtain ⟨name, basetf⟩ := nb
    have hred : calculateSupportResistanceSummary k3 k15 k1h k4h k12 k1d cp =
        (if (buildSets (summaryTimeframes [("3m", k3), ("15m", k15), ("1h", k1h), ("4h", k4h),
            ("12h", k12), ("1d", k1d)]) name).1.isEmpty then
          ⟨summaryTimeframes [("3m", k3), ("15m", k15), ("1h", k1h), ("4h", k4h),
            ("12h", k12), ("1d", k1d)], none⟩
        else
          ⟨summaryTimeframes [("3m", k3), ("15m", k15), ("1h", k1h), ("4h", k4h),
            ("12h", k12), ("1d", k1d)],
           some ⟨findConfluenceLevels basetf.Supports
               (buildSets (summaryTimeframes [("3m", k3), ("15m", k15), ("1h", k1h), ("4h", k4h),
                 ("12h", k12), ("1d", k1d)]) name).1 confluenceTolerance cp true,
             findConfluenceLevels basetf.Resistances
               (buildSets (summaryTimeframes [("3m", k3), ("15m", k15), ("1h", k1h), ("4h", k4h),
                 ("12h", k12), ("1d", k1d)]) name).2 confluenceTolerance cp false⟩⟩) := by
      simp only [calculateSupportResistanceSummary]
      rw [hsel]
    rw [hred] at hc
    split at hc
    · simp at hc
    · simp only [Option.some_inj] at hc
      rcases summaryTimeframes_mem _ _ (selectBase_mem _ _ _ hsel) with
        ⟨ks, hksmem, hlen, hS, hR⟩
      refine ⟨name, ks, basetf, rfl, hksmem, ?_, ?_⟩
      · intro l hl
        rw [← hc] at hl
        have hl2 : l ∈ findConfluenceLevels basetf.Supports _ confluenceTolerance cp true := hl
        rcases findConfluenceLevels_mem_from _ _ _ _ _ l hl2 with
          ⟨level, hlevel, w, other, _, hP, hI, _, _⟩
        rw [hS] at hlevel
        rcases updateLevelDistances_mem_down _ _ _ level hlevel with ⟨x, hx, hP2, _, _, hI2⟩
        have hb := (srLevels_bounds ks supportResistanceLookback).1 x hx
        rw [hI, hI2, hP, hP2]
        exact hb
      · intro l hl
        rw [← hc] at hl
        have hl2 : l ∈ findConfluenceLevels basetf.Resistances _ confluenceTolerance cp false := hl
        rcases findConfluenceLevels_mem_from _ _ _ _ _ l hl2 with
          ⟨level, hlevel, w, other, _, hP, hI, _, _⟩
        rw [hR] at hlevel
        rcases updateLevelDistances_mem_down _ _ _ level hlevel with ⟨x, hx, hP2, _, _, hI2⟩
        have hb := (srLevels_bounds ks supportResistanceLookback).2 x hx
        rw [hI, hI2, hP, hP2]
        exact hb

/-- Witness for C1: on a concrete 8-candle window with one local minimum at
price 5 and last close 8, the computed support satisfies the invariant. -/
theorem C1_price_side_invariant_witness :
    (⟨5, 1, 75/2, 5/7, true⟩ : SupportResistanceLevel).IsSupport = true ∧
    (⟨5, 1, 75/2, 5/7, true⟩ : SupportResistanceLevel).Price <
      srCurrentPrice
        [⟨0, 0, 20, 10, 8, 0, 0⟩, ⟨0, 0, 20, 10, 8, 0, 0⟩, ⟨0, 0, 20, 10, 8, 0, 0⟩,
         ⟨0, 0, 20, 5, 8, 0, 0⟩, ⟨0, 0, 20, 10, 8, 0, 0⟩, ⟨0, 0, 20, 10, 8, 0, 0⟩,
         ⟨0, 0, 20, 10, 8, 0, 0⟩, ⟨0, 0, 20, 10, 8, 0, 0⟩] 120 :=
  (C1_price_side_invariant.1
      [⟨0, 0, 20, 10, 8, 0, 0⟩, ⟨0, 0, 20, 10, 8, 0, 0⟩, ⟨0, 0, 20, 10, 8, 0, 0⟩,
       ⟨0, 0, 20, 5, 8, 0, 0⟩, ⟨0, 0, 20, 10, 8, 0, 0⟩, ⟨0, 0, 20, 10, 8, 0, 0⟩,
       ⟨0, 0, 20, 10, 8, 0, 0⟩, ⟨0, 0, 20, 10, 8, 0, 0⟩] 120).1
    ⟨5, 1, 75/2, 5/7, true⟩ (by with_unfolding_all decide)

/-- C1 counterexample: with an empty 3-minute list the base timeframe falls
back to 15m, whose supports were filtered against the 15m close (8), not the
`currentPrice` argument (1).  The confluence output then contains a level
with `IsSupport = true` and price 5, which is NOT below the `currentPrice`
argument 1 — refuting the claim that confluence levels satisfy the invariant
against the `currentPrice` argument of `calculateSupportResistanceSummary`. -/
theorem C1_counterexample :
    ((calculateSupportResistanceSummary []
        [⟨0, 0, 20, 10, 8, 0, 0⟩, ⟨0, 0, 20, 10, 8, 0, 0⟩, ⟨0, 0, 20, 10, 8, 0, 0⟩,
         ⟨0, 0, 20, 5, 8, 0, 0⟩, ⟨0, 0, 20, 10, 8, 0, 0⟩, ⟨0, 0, 20, 10, 8, 0, 0⟩,
         ⟨0, 0, 20, 10, 8, 0, 0⟩, ⟨0, 0, 20, 10, 8, 0, 0⟩]
        [⟨0, 0, 20, 10, 8, 0, 0⟩, ⟨0, 0, 20, 10, 8, 0, 0⟩, ⟨0, 0, 20, 10, 8, 0, 0⟩,
         ⟨0, 0, 20, 5, 8, 0, 0⟩, ⟨0, 0, 20, 10, 8, 0, 0⟩, ⟨0, 0, 20, 10, 8, 0, 0⟩,
         ⟨0, 0, 20, 10, 8, 0, 0⟩, ⟨0, 0, 20, 10, 8, 0, 0⟩]
        [] [] [] 1).Confluence.map
      (fun c => c.Supports.map (fun l => (l.Price, l.IsSupport)))) = some [(5, true)] ∧
    ¬((5 : ℚ) < 1) :=
  ⟨by with_unfolding_all rfl, by norm_num⟩

/-- C8: in `Get`, failure of any of the four timeframe candle fetches aborts
snapshot construction with an error identifying the failing timeframe and no
partial snapshot; when all four succeed (with a nonempty 3m list, as the Go
code indexes its last candle), construction always yields a snapshot —
open-interest or funding failures are never surfaced, a zero `OIData` or
funding rate 0 being substituted; and a symbol outside the configured
allow-set gets the zero `OIData` placeholder without any open-interest call
(the boolean component records whether that call was issued). -/
theorem C8_get_error_policy (coins : List String) (sym exch : String) (env : FetchEnv) :
    (∀ e, env.klines3m = .error e →
       Get coins sym exch env = (.error ("获取3分钟K线失败: " ++ e), false)) ∧
    (∀ e k3, env.klines3m = .ok k3 → env.klines15m = .error e →
       Get coins sym exch env = (.error ("获取15分钟K线失败: " ++ e), false)) ∧
    (∀ e k3 k15, env.klines3m = .ok k3 → env.klines15m = .ok k15 →
       env.klines1h = .error e →
       Get coins sym exch env = (.error ("获取1小时K线失败: " ++ e), false)) ∧
    (∀ e k3 k15 k1, env.klines3m = .ok k3 → env.klines15m = .ok k15 →
       env.klines1h = .ok k1 → env.klines4h = .error e →
       Get coins sym exch env = (.error ("获取4小时K线失败: " ++ e), false)) ∧
    (∀ k3 k15 k1 k4, env.klines3m = .ok k3 → env.klines15m = .ok k15 →
       env.klines1h = .ok k1 → env.klines4h = .ok k4 → k3 ≠ [] →
       ∃ d, (Get coins sym exch env).1 = .ok d ∧
         (Get coins sym exch env).2 = isInDefaultCoins coins (Normalize sym) ∧
         (isInDefaultCoins coins (Normalize sym) = false → d.OpenInterest = ⟨0, 0⟩) ∧
         (∀ e, (if exch = "hyperliquid" then env.oiHyperliquid else env.oiBinance) = .error e →
            d.OpenInterest = ⟨0, 0⟩) ∧
         (∀ e, env.fundingRate = .error e → d.FundingRate = 0)) := by
  refine ⟨?_, ?_, ?_, ?_, ?_⟩
  · intro e h3
    simp only [Get, h3]
  · intro e k3 h3 h15
    simp only [Get, h3, h15]
  · intro e k3 k15 h3 h15 h1
    simp only [Get, h3, h15, h1]
  · intro e k3 k15 k1 h3 h15 h1 h4
    simp only [Get, h3, h15, h1, h4]
  · intro k3 k15 k1 k4 h3 h15 h1 h4 _
    simp only [Get, h3, h15, h1, h4]
    refine ⟨_, rfl, trivial, ?_, ?_, ?_⟩
    · intro hfalse
      simp only [hfalse, Bool.false_eq_true, if_false]
    · intro e he
      by_cases hoc : isInDefaultCoins coins (Normalize sym) = true
      · simp only [hoc, if_true, he]
      · simp only [Bool.not_eq_true] at hoc
        simp only [hoc, Bool.false_eq_true, if_false]
    · intro e he
      simp only [he]

/-- Witness for C8: a symbol outside the allow-set with failing
open-interest and funding fetches still yields a snapshot with the zero
placeholders and no open-interest call. -/
theorem C8_get_error_policy_witness :
    ∃ d, (Get ["BTC"] "eth" "hyperliquid"
        ⟨.ok [⟨0, 2, 2, 2, 2, 1, 1⟩], .ok [⟨0, 2, 2, 2, 2, 1, 1⟩], .ok [⟨0, 2, 2, 2, 2, 1, 1⟩],
         .ok [⟨0, 2, 2, 2, 2, 1, 1⟩], .error "oi down", .error "oi down", .error "funding down"⟩).1
        = .ok d ∧
      (Get ["BTC"] "eth" "hyperliquid"
        ⟨.ok [⟨0, 2, 2, 2, 2, 1, 1⟩], .ok [⟨0, 2, 2, 2, 2, 1, 1⟩], .ok [⟨0, 2, 2, 2, 2, 1, 1⟩],
         .ok [⟨0, 2, 2, 2, 2, 1, 1⟩], .error "oi down", .error "oi down", .error "funding down"⟩).2
        = isInDefaultCoins ["BTC"] (Normalize "eth") ∧
      (isInDefaultCoins ["BTC"] (Normalize "eth") = false → d.OpenInterest = ⟨0, 0⟩) ∧
      (∀ e, (if "hyperliquid" = "hyperliquid" then
          (Except.error "oi down" : Except String OIData)
        else .error "oi down") = .error e → d.OpenInterest = ⟨0, 0⟩) ∧
      (∀ e, (Except.error "funding down" : Except String ℚ) = .error e → d.FundingRate = 0) :=
  (C8_get_error_policy ["BTC"] "eth" "hyperliquid"
      ⟨.ok [⟨0, 2, 2, 2, 2, 1, 1⟩], .ok [⟨0, 2, 2, 2, 2, 1, 1⟩], .ok [⟨0, 2, 2, 2, 2, 1, 1⟩],
       .ok [⟨0, 2, 2, 2, 2, 1, 1⟩], .error "oi down", .error "oi down",
       .error "funding down"⟩).2.2.2.2
    [⟨0, 2, 2, 2, 2, 1, 1⟩] [⟨0, 2, 2, 2, 2, 1, 1⟩] [⟨0, 2, 2, 2, 2, 1, 1⟩]
    [⟨0, 2, 2, 2, 2, 1, 1⟩] rfl rfl rfl rfl (by simp)

end Market
